import Mathlib

set_option autoImplicit false
set_option maxRecDepth 8192

/-!
Verification development for the hostnic-cni core: a shallow embedding of
the NIC allocator (pkg/allocator/allocator.go), the host network utilities
(pkg/networkutils/networkutil.go) and the IPAM core
(pkg/simple/client/network/ippool/ipam/ipam.go), with theorems settling
the frozen behavioral claims about them.

Conventions of the embedding:
- Go maps with pointer values are modelled as functions into
  Option (Option _): the outer Option is key presence (observable in Go
  through comma-ok, len, range and serialization), the inner Option is
  pointer nilness.
- External effects (the local key-value store, the datastore client, the
  kernel via netlink) are modelled by explicit state threading plus, where
  an outcome is genuinely environmental, a boolean or oracle parameter.
- IP addresses are natural numbers (the 32-bit value of the address).
-/

namespace HostnicSpec

/-! ## NIC allocator: pkg/allocator/allocator.go -/

namespace Allocator

/-- Phase of the NIC bring-up state machine (rpc.Phase). -/
inductive Phase where
  | Init
  | CreateAndAttach
  | JoinBridge
  | SetRouteTable
  | Succeeded
  deriving DecidableEq, Repr

/-- Pod info snapshot (rpc.PodInfo), restricted to the fields the allocator
reads. The container id field keeps the source spelling Containter. -/
structure PodInfo where
  namespc : String
  name : String
  containter : String
  podIP : String
  vxNet : String
  deriving DecidableEq, Repr

/-- VxNet reference (rpc.VxNet); only the ID is read by the allocator. -/
structure VxNet where
  id : String
  deriving DecidableEq, Repr

/-- Host NIC record (rpc.HostNic), restricted to the fields the allocator
reads and writes. -/
structure HostNic where
  id : String
  vxNet : VxNet
  routeTableNum : Int
  phase : Phase
  reserved : Bool
  deriving DecidableEq, Repr

/-- A Go map from container key to a pod pointer. For a key, none means
the key is absent, some none means the key is stored with a nil pointer,
some (some p) means the key is stored with a pointer to p. -/
def PodMap := String → Option (Option PodInfo)

/-- Go map lookup of a pointer value: an absent key reads as the nil
pointer, exactly like a stored nil pointer does. -/
def PodMap.look (m : PodMap) (k : String) : Option PodInfo :=
  match m k with
  | none => none
  | some v => v

/-- Go map assignment m[k] = v where v is a pointer, possibly nil. -/
def PodMap.ins (m : PodMap) (k : String) (v : Option PodInfo) : PodMap :=
  fun x => if x = k then some v else m x

/-- Go delete(m, k). -/
def PodMap.del (m : PodMap) (k : String) : PodMap :=
  fun x => if x = k then none else m x

/-- The in-memory nicStatus record the allocator keeps per subnet. -/
structure NicStatus where
  nic : HostNic
  pods : PodMap

/-- getContainterKey from allocator.go. -/
def getContainterKey (info : PodInfo) : String := info.containter

/-- Outcome of one nicStatus mutator: the record handed to
db.SetNetworkInfo, whether an error was returned, and the in-memory
record after the call. The success of the store write is an input (the
local store is external). -/
structure MutResult where
  written : NicStatus
  err : Bool
  final : NicStatus

/-- nicStatus.setNicPhase: save the phase, set the new one, write through;
on a store error restore the saved phase and return the error. -/
def NicStatus.setNicPhase (n : NicStatus) (pahse : Phase) (storeOk : Bool) : MutResult :=
  let n1 : NicStatus := { n with nic := { n.nic with phase := pahse } }
  if storeOk then ⟨n1, false, n1⟩
  else ⟨n1, true, { n1 with nic := { n1.nic with phase := n.nic.phase } }⟩

/-- nicStatus.addNicPod: save the current pod pointer and phase, store the
pod, force the phase to Succeeded, write through; on a store error delete
the entry when the saved pointer was nil, otherwise restore it, and
restore the phase. -/
def NicStatus.addNicPod (n : NicStatus) (pod : PodInfo) (storeOk : Bool) : MutResult :=
  let key := getContainterKey pod
  let savePod := n.pods.look key
  let saveStatus := n.nic.phase
  let n1 : NicStatus :=
    { nic := { n.nic with phase := .Succeeded }, pods := n.pods.ins key (some pod) }
  if storeOk then ⟨n1, false, n1⟩
  else
    match savePod with
    | none =>
        ⟨n1, true, { nic := { n1.nic with phase := saveStatus }, pods := n1.pods.del key }⟩
    | some p =>
        ⟨n1, true, { nic := { n1.nic with phase := saveStatus }, pods := n1.pods.ins key (some p) }⟩

/-- nicStatus.delNicPod: save the current pod pointer, delete the entry,
write through; on a store error assign the saved pointer back (a Go map
assignment, which stores a nil pointer when the key was absent). -/
def NicStatus.delNicPod (n : NicStatus) (pod : PodInfo) (storeOk : Bool) : MutResult :=
  let key := getContainterKey pod
  let save := n.pods.look key
  let n1 : NicStatus := { n with pods := n.pods.del key }
  if storeOk then ⟨n1, false, n1⟩
  else ⟨n1, true, { n1 with pods := n1.pods.ins key save }⟩

/-- nicStatus.isOK. -/
def NicStatus.isOK (n : NicStatus) : Bool := n.nic.phase == .Succeeded

theorem PodMap.ins_del_self (m : PodMap) (k : String) (v : Option PodInfo)
    (h : m k = some v) : (m.del k).ins k v = m := by
  funext x
  by_cases hx : x = k <;> simp [PodMap.ins, PodMap.del, hx, h.symm]

theorem PodMap.del_ins_absent (m : PodMap) (k : String) (v : Option PodInfo)
    (h : m k = none) : (m.ins k v).del k = m := by
  funext x
  by_cases hx : x = k <;> simp [PodMap.ins, PodMap.del, hx, h.symm]

theorem PodMap.ins_ins_self (m : PodMap) (k : String) (v w : Option PodInfo)
    (h : m k = some w) : (m.ins k v).ins k w = m := by
  funext x
  by_cases hx : x = k <;> simp [PodMap.ins, hx, h.symm]

end Allocator

/-- C3 (amended). Every nicStatus mutation first applies its change to the
in-memory record and hands the mutated record to the store; on success the
in-memory record is the written record; on a store error the error is
returned and the in-memory record is reverted exactly, for setNicPhase
always, for addNicPod provided the prior entry under the container key is
not a stored nil pointer, and for delNicPod provided the container key is
present. -/
theorem nicStatus_writeThrough_rollback (s : Allocator.NicStatus)
    (ph : Allocator.Phase) (pod : Allocator.PodInfo)
    (hadd : s.pods (Allocator.getContainterKey pod) ≠ some none)
    (hdel : s.pods (Allocator.getContainterKey pod) ≠ none) :
    ((s.setNicPhase ph true).err = false ∧
      (s.setNicPhase ph true).final = (s.setNicPhase ph true).written ∧
      (s.setNicPhase ph true).written.nic.phase = ph ∧
      (s.setNicPhase ph true).written.pods = s.pods) ∧
    ((s.setNicPhase ph false).err = true ∧ (s.setNicPhase ph false).final = s) ∧
    ((s.addNicPod pod true).err = false ∧
      (s.addNicPod pod true).final = (s.addNicPod pod true).written) ∧
    ((s.addNicPod pod false).err = true ∧ (s.addNicPod pod false).final = s) ∧
    ((s.delNicPod pod true).err = false ∧
      (s.delNicPod pod true).final = (s.delNicPod pod true).written) ∧
    ((s.delNicPod pod false).err = true ∧ (s.delNicPod pod false).final = s) := by
  have haddc : (s.addNicPod pod false).err = true ∧ (s.addNicPod pod false).final = s := by
    rcases hv : s.pods (Allocator.getContainterKey pod) with _ | v
    · have hl : s.pods.look (Allocator.getContainterKey pod) = none := by
        simp [Allocator.PodMap.look, hv]
      refine ⟨by simp [Allocator.NicStatus.addNicPod, hl], ?_⟩
      simp only [Allocator.NicStatus.addNicPod, hl]
      rw [show ((s.pods.ins (Allocator.getContainterKey pod) (some pod)).del
          (Allocator.getContainterKey pod)) = s.pods from
        Allocator.PodMap.del_ins_absent s.pods (Allocator.getContainterKey pod) _ hv]
      rfl
    · rcases v with _ | p
      · exact absurd hv hadd
      · have hl : s.pods.look (Allocator.getContainterKey pod) = some p := by
          simp [Allocator.PodMap.look, hv]
        refine ⟨by simp [Allocator.NicStatus.addNicPod, hl], ?_⟩
        simp only [Allocator.NicStatus.addNicPod, hl]
        rw [show ((s.pods.ins (Allocator.getContainterKey pod) (some pod)).ins
            (Allocator.getContainterKey pod) (some p)) = s.pods from
          Allocator.PodMap.ins_ins_self s.pods (Allocator.getContainterKey pod) _ _ hv]
        rfl
  have hdelc : (s.delNicPod pod false).err = true ∧ (s.delNicPod pod false).final = s := by
    rcases hv : s.pods (Allocator.getContainterKey pod) with _ | v
    · exact absurd hv hdel
    · have hl : s.pods.look (Allocator.getContainterKey pod) = v := by
        simp [Allocator.PodMap.look, hv]
      refine ⟨rfl, ?_⟩
      simp only [Allocator.NicStatus.delNicPod, hl]
      rw [show ((s.pods.del (Allocator.getContainterKey pod)).ins
          (Allocator.getContainterKey pod) v) = s.pods from
        Allocator.PodMap.ins_del_self s.pods (Allocator.getContainterKey pod) v hv]
      rfl
  exact ⟨⟨rfl, rfl, rfl, rfl⟩, ⟨rfl, rfl⟩, ⟨rfl, rfl⟩, haddc, ⟨rfl, rfl⟩, hdelc⟩

/-- Sample state for the C3 witness and counterexample. -/
def nicW : Allocator.HostNic :=
  { id := "nic-1", vxNet := ⟨"vxnet-a"⟩, routeTableNum := 260, phase := .JoinBridge,
    reserved := true }

/-- Sample pod for the C3 witness and counterexample. -/
def podW : Allocator.PodInfo :=
  { namespc := "ns1", name := "pod1", containter := "c0", podIP := "10.0.0.2",
    vxNet := "vxnet-a" }

/-- Sample nicStatus whose pod map holds podW under its container key. -/
def statusW : Allocator.NicStatus :=
  { nic := nicW, pods := fun k => if k = "c0" then some (some podW) else none }

/-- Sample nicStatus with an empty pod map. -/
def statusEmptyW : Allocator.NicStatus := { nic := nicW, pods := fun _ => none }

/-- Witness for C3: the rollback theorem applied at a concrete record. -/
theorem nicStatus_writeThrough_rollback_witness :
    ((statusW.setNicPhase .Init true).err = false ∧
      (statusW.setNicPhase .Init true).final = (statusW.setNicPhase .Init true).written ∧
      (statusW.setNicPhase .Init true).written.nic.phase = .Init ∧
      (statusW.setNicPhase .Init true).written.pods = statusW.pods) ∧
    ((statusW.setNicPhase .Init false).err = true ∧
      (statusW.setNicPhase .Init false).final = statusW) ∧
    ((statusW.addNicPod podW true).err = false ∧
      (statusW.addNicPod podW true).final = (statusW.addNicPod podW true).written) ∧
    ((statusW.addNicPod podW false).err = true ∧
      (statusW.addNicPod podW false).final = statusW) ∧
    ((statusW.delNicPod podW true).err = false ∧
      (statusW.delNicPod podW true).final = (statusW.delNicPod podW true).written) ∧
    ((statusW.delNicPod podW false).err = true ∧
      (statusW.delNicPod podW false).final = statusW) :=
  nicStatus_writeThrough_rollback statusW .Init podW
    (by simp [statusW, podW, Allocator.getContainterKey])
    (by simp [statusW, podW, Allocator.getContainterKey])

/-- Counterexample for C3 as stated: delNicPod for a container key that is
absent from the pod map, with a failing store write, does not revert the
in-memory record to its prior state; the failed restore stores a nil
pointer under the key, so the record differs at that key. -/
theorem delNicPod_absent_key_no_exact_revert :
    (statusEmptyW.delNicPod podW false).err = true ∧
    (statusEmptyW.delNicPod podW false).final ≠ statusEmptyW ∧
    (statusEmptyW.delNicPod podW false).final.pods "c0" = some none ∧
    statusEmptyW.pods "c0" = none := by
  refine ⟨rfl, ?_, ?_, rfl⟩
  · intro h
    have h2 := congrArg (fun st => st.pods "c0") h
    simp [statusEmptyW, podW, Allocator.NicStatus.delNicPod, Allocator.PodMap.ins,
      Allocator.PodMap.del, Allocator.PodMap.look, Allocator.getContainterKey] at h2
  · simp [statusEmptyW, podW, Allocator.NicStatus.delNicPod, Allocator.PodMap.ins,
      Allocator.PodMap.del, Allocator.PodMap.look, Allocator.getContainterKey]

/-- C9. addNicPod always hands the store a record in phase Succeeded,
whatever phase the record held before, and on success the in-memory phase
is Succeeded as well. -/
theorem addNicPod_forces_succeeded (s : Allocator.NicStatus)
    (pod : Allocator.PodInfo) :
    ((s.addNicPod pod true).written.nic.phase = .Succeeded ∧
      (s.addNicPod pod false).written.nic.phase = .Succeeded) ∧
    (s.addNicPod pod true).final.nic.phase = .Succeeded ∧
    (s.addNicPod pod true).final.pods.look (Allocator.getContainterKey pod) = some pod := by
  refine ⟨⟨rfl, ?_⟩, rfl, ?_⟩
  · simp only [Allocator.NicStatus.addNicPod]
    rcases s.pods.look (Allocator.getContainterKey pod) with _ | p <;> rfl
  · simp [Allocator.NicStatus.addNicPod, Allocator.PodMap.look, Allocator.PodMap.ins]

namespace Allocator

/-- The process-wide table a.nics, keyed by subnet id. Go map iteration
order is unspecified; an association list fixes one order, which the
claims settled here do not depend on. -/
abbrev AllocMap := List (String × NicStatus)

/-- The exists map getNicRouteTableNum builds: every route table number
recorded across the cached NICs. -/
def usedRouteTables (nics : AllocMap) : List Int :=
  nics.map (fun e => e.2.nic.routeTableNum)

theorem mem_le_foldr_max (l : List Int) (b : Int) : ∀ x ∈ l, x ≤ l.foldr max b := by
  induction l with
  | nil => intro x hx; cases hx
  | cons a t ih =>
      intro x hx
      rcases List.mem_cons.mp hx with rfl | hx
      · exact le_max_left _ _
      · exact le_trans (ih x hx) (le_max_right _ _)

theorem base_le_foldr_max (l : List Int) (b : Int) : b ≤ l.foldr max b := by
  induction l with
  | nil => exact le_refl _
  | cons a t ih => exact le_trans ih (le_max_right _ _)

theorem exists_free_offset (used : List Int) (base : Int) :
    ∃ k : Nat, base + (k : Int) ∉ used := by
  refine ⟨(used.foldr max base + 1 - base).toNat, fun hmem => ?_⟩
  have hb : base ≤ used.foldr max base := base_le_foldr_max used base
  have hle := mem_le_foldr_max used base _ hmem
  have : base + ((used.foldr max base + 1 - base).toNat : Int) =
      used.foldr max base + 1 := by
    rw [Int.toNat_of_nonneg (by omega)]
    omega
  omega

/-- The unbounded search loop of getNicRouteTableNum: the first integer
at or above the base that is not a recorded route table number. The loop
terminates because the exists map is finite; its result is the least such
integer, realized with Nat.find over the decidable freeness predicate. -/
def firstFreeRouteTable (used : List Int) (base : Int) : Int :=
  base + (Nat.find (exists_free_offset used base) : Int)

/-- getNicRouteTableNum from allocator.go: a NIC with a route table number
of zero or below is assigned the first free number at or above
conf.RouteTableBase; a NIC that has one keeps it. -/
def getNicRouteTableNum (nics : AllocMap) (routeTableBase : Int) (nic : HostNic) : Int :=
  if nic.routeTableNum ≤ 0 then firstFreeRouteTable (usedRouteTables nics) routeTableBase
  else nic.routeTableNum

end Allocator

/-- C6. A NIC admitted without a route table number is assigned the
smallest integer at or above routeTableBase that no cached NIC record
uses, and inserting a record carrying that number keeps the recorded
numbers pairwise distinct. -/
theorem getNicRouteTableNum_least_free_and_distinct
    (nics : Allocator.AllocMap) (base : Int) (nic : Allocator.HostNic)
    (h : nic.routeTableNum ≤ 0) :
    base ≤ Allocator.getNicRouteTableNum nics base nic ∧
    Allocator.getNicRouteTableNum nics base nic ∉ Allocator.usedRouteTables nics ∧
    (∀ m : Int, base ≤ m → m < Allocator.getNicRouteTableNum nics base nic →
      m ∈ Allocator.usedRouteTables nics) ∧
    ((Allocator.usedRouteTables nics).Nodup →
      (Allocator.getNicRouteTableNum nics base nic ::
        Allocator.usedRouteTables nics).Nodup) := by
  have hdef : Allocator.getNicRouteTableNum nics base nic =
      base + (Nat.find (Allocator.exists_free_offset (Allocator.usedRouteTables nics) base) : Int) := by
    simp [Allocator.getNicRouteTableNum, Allocator.firstFreeRouteTable, h]
  have hfree := Nat.find_spec (Allocator.exists_free_offset (Allocator.usedRouteTables nics) base)
  refine ⟨by rw [hdef]; omega, by rw [hdef]; exact hfree, ?_, ?_⟩
  · intro m hbm hlt
    rw [hdef] at hlt
    have hk : (m - base).toNat < Nat.find (Allocator.exists_free_offset (Allocator.usedRouteTables nics) base) := by
      omega
    have := Nat.find_min (Allocator.exists_free_offset (Allocator.usedRouteTables nics) base) hk
    simp only [not_not] at this
    have hm : base + ((m - base).toNat : Int) = m := by
      rw [Int.toNat_of_nonneg (by omega)]; omega
    rwa [hm] at this
  · intro hnd
    refine List.nodup_cons.mpr ⟨by rw [hdef]; exact hfree, hnd⟩

/-- Concrete allocator table for the C6 witness: recorded route table
numbers 260 and 261. -/
def nicsW : Allocator.AllocMap :=
  [("vxnet-a", { nic := { nicW with routeTableNum := 260 }, pods := fun _ => none }),
   ("vxnet-b", { nic := { nicW with id := "nic-2", vxNet := ⟨"vxnet-b"⟩, routeTableNum := 261 },
                 pods := fun _ => none })]

/-- NIC without an assigned route table number, for the C6 witness. -/
def nicNoTableW : Allocator.HostNic :=
  { id := "nic-3", vxNet := ⟨"vxnet-c"⟩, routeTableNum := 0, phase := .Init, reserved := true }

/-- Witness for C6: the theorem applied at the concrete table with base
260 and a NIC whose route table number is 0. -/
theorem getNicRouteTableNum_least_free_and_distinct_witness :
    260 ≤ Allocator.getNicRouteTableNum nicsW 260 nicNoTableW ∧
    Allocator.getNicRouteTableNum nicsW 260 nicNoTableW ∉ Allocator.usedRouteTables nicsW ∧
    (∀ m : Int, 260 ≤ m → m < Allocator.getNicRouteTableNum nicsW 260 nicNoTableW →
      m ∈ Allocator.usedRouteTables nicsW) ∧
    ((Allocator.usedRouteTables nicsW).Nodup →
      (Allocator.getNicRouteTableNum nicsW 260 nicNoTableW ::
        Allocator.usedRouteTables nicsW).Nodup) :=
  getNicRouteTableNum_least_free_and_distinct nicsW 260 nicNoTableW (by decide)

namespace Allocator

/-- Result triple of FreeHostNic: the NIC of the record that held the
pod, the recorded pod IP, and whether an error was returned. -/
structure FreeOut where
  nic : Option HostNic
  ip : String
  err : Bool

/-- Association list lookup for the allocator table. -/
def AllocMap.findEntry (nics : AllocMap) (key : String) : Option NicStatus :=
  (nics.find? (fun e => e.1 == key)).map (fun e => e.2)

/-- Association list update for the allocator table: the entry under the
key is replaced (the Go code mutates the shared nicStatus object, so the
table sees the mutated record whether or not the store write succeeded). -/
def AllocMap.replaceEntry (nics : AllocMap) (key : String) (st : NicStatus) : AllocMap :=
  nics.map (fun e => if e.1 == key then (e.1, st) else e)

/-- Allocator.delNicPod: look the subnet up in the table and run the
record-level delNicPod; a missing subnet is not an error. -/
def AllocMap.delNicPodA (nics : AllocMap) (nic : HostNic) (info : PodInfo)
    (storeOk : Bool) : Bool × AllocMap :=
  match nics.findEntry nic.vxNet.id with
  | none => (false, nics)
  | some st =>
      let r := st.delNicPod info storeOk
      (r.err, nics.replaceEntry nic.vxNet.id r.final)

/-- The record FreeHostNic reaches for a pod: the first table entry whose
pod map has the container key (with comma-ok semantics, a stored nil
pointer also matches). -/
def AllocMap.findPodEntry (nics : AllocMap) (key : String) : Option (String × NicStatus) :=
  nics.find? (fun e => (e.2.pods key).isSome)

/-- FreeHostNic from allocator.go. Peek mode returns the record and the
recorded pod IP without mutation; commit mode deletes the pod entry and
persists. A pod found in no record returns an empty result and no error.
A stored nil pod pointer would crash the Go code at pod.PodIP; that
unreachable-for-well-formed-states case is modelled as an empty IP. -/
def FreeHostNic (nics : AllocMap) (args : PodInfo) (peek : Bool)
    (storeOk : Bool) : FreeOut × AllocMap :=
  match nics.findPodEntry (getContainterKey args) with
  | none => (⟨none, "", false⟩, nics)
  | some e =>
      let podPtr := e.2.pods.look (getContainterKey args)
      let ip := (podPtr.map (fun p => p.podIP)).getD ""
      if peek then (⟨some e.2.nic, ip, false⟩, nics)
      else
        match podPtr with
        | none => (⟨some e.2.nic, ip, true⟩, nics)
        | some pod =>
            let (err, nics2) := nics.delNicPodA e.2.nic pod storeOk
            (⟨some e.2.nic, ip, err⟩, nics2)

end Allocator

/-- C10. FreeHostNic for a pod whose container key appears in no cached
record returns an empty result with no error, in peek mode and in commit
mode alike, and leaves the table unchanged. -/
theorem FreeHostNic_unknown_pod (nics : Allocator.AllocMap)
    (args : Allocator.PodInfo) (peek storeOk : Bool)
    (h : ∀ e ∈ nics, e.2.pods (Allocator.getContainterKey args) = none) :
    Allocator.FreeHostNic nics args peek storeOk = (⟨none, "", false⟩, nics) := by
  have hfind : nics.findPodEntry (Allocator.getContainterKey args) = none := by
    apply List.find?_eq_none.mpr
    intro e he
    simp [h e he]
  simp [Allocator.FreeHostNic, hfind]

/-- Witness for C10: the theorem applied at a concrete table that caches
one NIC with no pods, in both peek and commit mode. -/
theorem FreeHostNic_unknown_pod_witness :
    Allocator.FreeHostNic [("vxnet-a", statusEmptyW)] podW true true =
      (⟨none, "", false⟩, [("vxnet-a", statusEmptyW)]) ∧
    Allocator.FreeHostNic [("vxnet-a", statusEmptyW)] podW false false =
      (⟨none, "", false⟩, [("vxnet-a", statusEmptyW)]) :=
  ⟨FreeHostNic_unknown_pod _ podW true true
      (by intro e he; rcases List.mem_singleton.mp he with rfl; rfl),
    FreeHostNic_unknown_pod _ podW false false
      (by intro e he; rcases List.mem_singleton.mp he with rfl; rfl)⟩

/-! ## Host network utilities: pkg/networkutils/networkutil.go -/

namespace NetworkUtils

/-- An IP network: address value and prefix length (net.IPNet). -/
structure IPNet where
  addr : Nat
  maskOnes : Nat
  deriving DecidableEq, Repr

/-- An IP rule (netlink.Rule), restricted to the fields the source reads
and compares. -/
structure Rule where
  src : Option IPNet
  dst : Option IPNet
  table : Nat
  priority : Int
  deriving DecidableEq, Repr

/-- GetRuleListBySrc: the rules of the list whose source IP equals the
given source IP; the source compares rule.Src.IP with src.IP, ignoring
the masks. -/
def GetRuleListBySrc (ruleList : List Rule) (src : IPNet) : List Rule :=
  ruleList.filter (fun r =>
    match r.src with
    | some s => s.addr == src.addr
    | none => false)

/-- Kernel RuleDel: one rule equal to the argument is removed; deleting a
rule that is not present yields the no-such-rule error ENOENT (first
component true). Other kernel failures are outside this model. -/
def RuleDel (st : List Rule) (r : Rule) : Bool × List Rule :=
  if r ∈ st then (false, st.erase r) else (true, st)

/-- The deletion loop of DeleteRuleListBySrc over the snapshot it took:
each rule is deleted, and a no-such-rule error from the kernel is treated
as success (the loop only aborts on other errors). -/
def deleteRules (toDel : List Rule) (st : List Rule) : List Rule :=
  match toDel with
  | [] => st
  | r :: rest => deleteRules rest (RuleDel st r).2

/-- DeleteRuleListBySrc: list the rules, filter those with the matching
source IP, delete each. In this kernel model the call always returns
success; the resulting rule list is returned. -/
def DeleteRuleListBySrc (st : List Rule) (src : IPNet) : List Rule :=
  deleteRules (GetRuleListBySrc st src) st

theorem RuleDel_snd (st : List Rule) (r : Rule) : (RuleDel st r).2 = st.erase r := by
  by_cases h : r ∈ st
  · simp [RuleDel, h]
  · simp [RuleDel, h, List.erase_of_not_mem h]

theorem deleteRules_eq_diff (toDel st : List Rule) :
    deleteRules toDel st = st.diff toDel := by
  induction toDel generalizing st with
  | nil => simp [deleteRules]
  | cons r rest ih => simp [deleteRules, RuleDel_snd, ih, List.diff_cons]

theorem diff_filter_eq_filter_not (p : Rule → Bool) (st : List Rule) :
    st.diff (st.filter p) = st.filter (fun r => !(p r)) := by
  induction st with
  | nil => simp
  | cons a t ih =>
      by_cases hp : p a
      · have h1 : (a :: t).filter p = a :: t.filter p := by simp [hp]
        rw [h1, List.diff_cons, List.erase_cons_head]
        simp [ih, hp]
      · have h1 : (a :: t).filter p = t.filter p := by simp [hp]
        have h2 : a ∉ t.filter p := by
          intro hmem
          exact hp (List.of_mem_filter hmem)
        rw [h1, List.cons_diff]
        simp [h2, ih, hp]

theorem DeleteRuleListBySrc_eq_filter (st : List Rule) (src : IPNet) :
    DeleteRuleListBySrc st src = st.filter (fun r =>
      !(match r.src with
        | some s => s.addr == src.addr
        | none => false)) := by
  rw [DeleteRuleListBySrc, deleteRules_eq_diff, GetRuleListBySrc,
    diff_filter_eq_filter_not]

end NetworkUtils

/-- C8. After DeleteRuleListBySrc for a source X no rule whose source IP
equals the IP of X remains, in particular no rule with source exactly X;
the call succeeds in this kernel model, where a no-such-rule error on
delete is treated as success; and a second invocation with the same X
succeeds while changing nothing. -/
theorem DeleteRuleListBySrc_clears_and_idempotent
    (st : List NetworkUtils.Rule) (src : NetworkUtils.IPNet) :
    (∀ r ∈ NetworkUtils.DeleteRuleListBySrc st src, ∀ s, r.src = some s →
      s.addr ≠ src.addr) ∧
    (∀ r ∈ NetworkUtils.DeleteRuleListBySrc st src, r.src ≠ some src) ∧
    NetworkUtils.DeleteRuleListBySrc (NetworkUtils.DeleteRuleListBySrc st src) src =
      NetworkUtils.DeleteRuleListBySrc st src := by
  have hmem : ∀ r ∈ NetworkUtils.DeleteRuleListBySrc st src, ∀ s, r.src = some s →
      s.addr ≠ src.addr := by
    intro r hr s hs
    rw [NetworkUtils.DeleteRuleListBySrc_eq_filter] at hr
    have := List.of_mem_filter hr
    rw [hs] at this
    simpa using this
  refine ⟨hmem, ?_, ?_⟩
  · intro r hr hsrc
    exact hmem r hr src hsrc rfl
  · rw [NetworkUtils.DeleteRuleListBySrc_eq_filter st src,
      NetworkUtils.DeleteRuleListBySrc_eq_filter, List.filter_filter]
    apply List.filter_congr
    intro r _
    cases hr : r.src <;> simp [hr]

namespace NetworkUtils

/-- A kernel link (netlink.Link), restricted to the MAC address. -/
structure Link where
  mac : String
  deriving DecidableEq, Repr

/-- Outcome of one netLink.LinkList call. -/
inductive LinkListRes where
  | failed
  | listed (links : List Link)
  deriving DecidableEq, Repr

/-- The last error LinkByMac remembers: the attempt that produced it and
its kind (list failure, or no interface with the MAC). -/
inductive LookupErr where
  | listFailed (attempt : Nat)
  | noInterface (attempt : Nat)
  deriving DecidableEq, Repr

/-- maxAttemptsLinkByMac from networkutil.go. -/
def maxAttemptsLinkByMac : Nat := 5

/-- retryLinkByMacInterval from networkutil.go, in seconds. -/
def retryLinkByMacIntervalSec : Nat := 5

/-- The retry loop of LinkByMac: remaining attempts, the index of the
current attempt, and the last error so far. Returns the result and the
number of LinkList calls made. -/
def linkByMacAux (mac : String) (ll : Nat → LinkListRes) :
    Nat → Nat → LookupErr → Except LookupErr Link × Nat
  | 0, _, last => (.error last, 0)
  | r + 1, idx, _ =>
      match ll idx with
      | .failed =>
          let p := linkByMacAux mac ll r (idx + 1) (.listFailed idx)
          (p.1, p.2 + 1)
      | .listed links =>
          match links.find? (fun l => l.mac == mac) with
          | some l => (.ok l, 1)
          | none =>
              let p := linkByMacAux mac ll r (idx + 1) (.noInterface idx)
              (p.1, p.2 + 1)

/-- LinkByMac from networkutil.go: up to maxAttemptsLinkByMac attempts,
sleeping retryLinkByMacInterval before every attempt after the first;
past the cap the last error is returned. -/
def LinkByMac (mac : String) (ll : Nat → LinkListRes) : Except LookupErr Link × Nat :=
  linkByMacAux mac ll maxAttemptsLinkByMac 1 (.noInterface 0)

/-- An attempt fails when the list call errors or no listed link carries
the MAC. -/
def attemptFails (mac : String) (ll : Nat → LinkListRes) (i : Nat) : Prop :=
  match ll i with
  | .failed => True
  | .listed links => links.find? (fun l => l.mac == mac) = none

/-- The error LinkByMac would record for attempt i. -/
def errAt (ll : Nat → LinkListRes) (i : Nat) : LookupErr :=
  match ll i with
  | .failed => .listFailed i
  | .listed _ => .noInterface i

theorem linkByMacAux_calls_le (mac : String) (ll : Nat → LinkListRes) :
    ∀ (r idx : Nat) (last : LookupErr), (linkByMacAux mac ll r idx last).2 ≤ r := by
  intro r
  induction r with
  | zero => intro idx last; simp [linkByMacAux]
  | succ n ih =>
      intro idx last
      simp only [linkByMacAux]
      cases hll : ll idx with
      | failed => simpa using ih (idx + 1) (.listFailed idx)
      | listed links =>
          cases hfind : links.find? (fun l => l.mac == mac) with
          | some l => simp [hfind]
          | none =>
              simp only [hfind]
              simpa using ih (idx + 1) (.noInterface idx)

theorem linkByMacAux_all_fail (mac : String) (ll : Nat → LinkListRes) :
    ∀ (r idx : Nat) (last : LookupErr), 0 < r →
      (∀ i, idx ≤ i → i < idx + r → attemptFails mac ll i) →
      linkByMacAux mac ll r idx last = (.error (errAt ll (idx + r - 1)), r) := by
  intro r
  induction r with
  | zero => intro idx last h; omega
  | succ n ih =>
      intro idx last _ hfail
      have hidx : attemptFails mac ll idx := hfail idx (le_refl _) (by omega)
      simp only [linkByMacAux]
      cases hll : ll idx with
      | failed =>
          rcases Nat.eq_zero_or_pos n with rfl | hn
          · simp [linkByMacAux, errAt, hll]
          · rw [ih (idx + 1) (.listFailed idx) hn
              (fun i h1 h2 => hfail i (by omega) (by omega))]
            have heq : idx + 1 + n - 1 = idx + (n + 1) - 1 := by omega
            rw [heq]
      | listed links =>
          have hnone : links.find? (fun l => l.mac == mac) = none := by
            have h2 := hidx
            rw [attemptFails, hll] at h2
            exact h2
          simp only [hnone]
          rcases Nat.eq_zero_or_pos n with rfl | hn
          · simp [linkByMacAux, errAt, hll]
          · rw [ih (idx + 1) (.noInterface idx) hn
              (fun i h1 h2 => hfail i (by omega) (by omega))]
            have heq : idx + 1 + n - 1 = idx + (n + 1) - 1 := by omega
            rw [heq]

/-- Result of the LinkByMacAddr call inside the wait-for-attach loop of
AllocHostNic: a link (loop exits), the ErrNicNotFound error with no link
(loop sleeps one second and retries), or another error (loop returns it). -/
inductive WaitLookup where
  | found (l : Link)
  | miss
  | errOther
  deriving DecidableEq, Repr

/-- State of the wait-for-attach loop after some number of iterations:
still running (having slept that many seconds, one per iteration),
failed with a surfaced error, or exited with the attached link. -/
inductive WaitState where
  | running (sleptSec : Nat)
  | failed
  | attached (l : Link)
  deriving DecidableEq, Repr

/-- The wait-for-attach loop of AllocHostNic (allocator.go): an unbounded
for loop; each iteration looks the link up by MAC, returns on a non-
ErrNicNotFound error, exits when a link appeared, and otherwise sleeps
one second and retries. Running it for a bounded number of iterations
reports whether it has exited by then. -/
def allocWaitAux (lk : Nat → WaitLookup) : Nat → Nat → WaitState
  | i, 0 => .running i
  | i, fuel + 1 =>
      match lk i with
      | .errOther => .failed
      | .found l => .attached l
      | .miss => allocWaitAux lk (i + 1) fuel

/-- The wait-for-attach loop observed after at most n iterations. -/
def allocWaitRun (lk : Nat → WaitLookup) (n : Nat) : WaitState :=
  allocWaitAux lk 0 n

theorem allocWaitAux_miss (lk : Nat → WaitLookup) :
    ∀ (n i : Nat), (∀ j, lk j = .miss) → allocWaitAux lk i n = .running (i + n) := by
  intro n
  induction n with
  | zero => intro i h; simp [allocWaitAux]
  | succ m ih =>
      intro i h
      simp only [allocWaitAux, h i]
      rw [ih (i + 1) h]
      congr 1
      omega

end NetworkUtils

/-- C7 (amended). LinkByMac, the lookup used by the per-NIC setup, is
bounded: it makes at most five LinkList calls, waits five seconds between
consecutive attempts, and when all five attempts fail it surfaces the
error of the fifth attempt. The wait-for-attach loop of AllocHostNic is
not bounded: as long as every lookup reports ErrNicNotFound it keeps
retrying, sleeping one second per iteration, and surfaces no error. -/
theorem linkWait_bounds (mac : String) (ll : Nat → NetworkUtils.LinkListRes)
    (lk : Nat → NetworkUtils.WaitLookup) :
    ((NetworkUtils.LinkByMac mac ll).2 ≤ NetworkUtils.maxAttemptsLinkByMac) ∧
    ((∀ i, 1 ≤ i → i ≤ 5 → NetworkUtils.attemptFails mac ll i) →
      NetworkUtils.LinkByMac mac ll = (.error (NetworkUtils.errAt ll 5), 5)) ∧
    ((∀ j, lk j = .miss) → ∀ n, NetworkUtils.allocWaitRun lk n = .running n) := by
  refine ⟨NetworkUtils.linkByMacAux_calls_le mac ll 5 1 _, ?_, ?_⟩
  · intro hfail
    have := NetworkUtils.linkByMacAux_all_fail mac ll 5 1 (.noInterface 0) (by omega)
      (fun i h1 h2 => hfail i h1 (by omega))
    simpa [NetworkUtils.LinkByMac, NetworkUtils.maxAttemptsLinkByMac] using this
  · intro h n
    have := NetworkUtils.allocWaitAux_miss lk n 0 h
    simpa [NetworkUtils.allocWaitRun] using this

/-- The all-misses lookup stream: the kernel never shows the link and
LinkByMacAddr keeps reporting ErrNicNotFound. -/
def lkMissW : Nat → NetworkUtils.WaitLookup := fun _ => .miss

/-- Counterexample for C7 as stated: the wait-for-attach loop of
AllocHostNic is past its sixth iteration and is still waiting, with six
seconds slept at one-second intervals; no error has been surfaced after
the claimed cap of five attempts. -/
theorem allocWait_not_bounded_by_five :
    NetworkUtils.allocWaitRun lkMissW 6 = .running 6 ∧
    NetworkUtils.allocWaitRun lkMissW 6 ≠ .failed ∧
    NetworkUtils.allocWaitRun lkMissW 25 = .running 25 := by
  refine ⟨rfl, ?_, rfl⟩
  intro h
  exact absurd (rfl.symm.trans h) (by decide)

/-- Witness for C7: the bounds applied to the stream where every list
call fails and every wait lookup misses. -/
theorem linkWait_bounds_witness :
    ((NetworkUtils.LinkByMac "mac-a" (fun _ => .failed)).2 ≤
      NetworkUtils.maxAttemptsLinkByMac) ∧
    (NetworkUtils.LinkByMac "mac-a" (fun _ => .failed) =
      (.error (.listFailed 5), 5)) ∧
    NetworkUtils.allocWaitRun lkMissW 7 = .running 7 :=
  ⟨(linkWait_bounds "mac-a" (fun _ => .failed) lkMissW).1,
    (linkWait_bounds "mac-a" (fun _ => .failed) lkMissW).2.1
      (fun i _ _ => by simp [NetworkUtils.attemptFails]),
    (linkWait_bounds "mac-a" (fun _ => .failed) lkMissW).2.2 (fun _ => rfl) 7⟩

/-! ## IPAM core: pkg/simple/client/network/ippool/ipam/ipam.go

The record types Pool, Block and Handle live in the v1alpha1 API package,
which is not among the given files; their fields and methods are modelled
from the data-model section of the spec, each with a doc comment saying
so. Every function of ipam.go itself is translated from the source. The
datastore client is external; writes are modelled as succeeding (a
single-writer snapshot), and where a claim concerns retries the per-
attempt outcome is an oracle parameter. -/

namespace Ipam

/-- A CIDR: network address value and prefix length. IP addresses are
plain naturals holding the 32-bit value of the address. -/
structure Cidr where
  base : Nat
  ones : Nat
  deriving DecidableEq, Repr

/-- Number of addresses covered by the CIDR. -/
def Cidr.numAddresses (c : Cidr) : Nat := 2 ^ (32 - c.ones)

/-- CIDR membership (net.IPNet.Contains): the address masked to the
prefix equals the network address masked likewise, stated on numeric
values through division by the block size. -/
def Cidr.containsB (c : Cidr) (ip : Nat) : Bool :=
  ip / c.numAddresses == c.base / c.numAddresses

/-- Pool type tag; the source distinguishes VLAN from the default, and an
invalid tag fails the validity predicate. -/
inductive PoolType where
  | routed
  | vlan
  | unknownType
  deriving DecidableEq, Repr

/-- Modelled from the spec: the IPPool record of the missing v1alpha1
package — CIDR, block size (prefix length for sub-allocation), optional
range start and end (none encodes the empty string), disabled flag and
type tag. -/
structure IPPool where
  name : String
  cidr : Cidr
  blockSize : Nat
  rangeStart : Option Nat
  rangeEnd : Option Nat
  disabled : Bool
  typ : PoolType
  deriving DecidableEq, Repr

/-- Modelled from the spec: the per-type validity predicate TypeInvalid
of the missing v1alpha1 package (the type tag must be one of routed,
vlan). -/
def IPPool.typeInvalid (p : IPPool) : Bool := p.typ == .unknownType

/-- A deduplicated allocation attribute: primary handle identifier and
secondary key-value pairs (AllocationAttribute). -/
structure AllocationAttribute where
  attrPrimary : String
  attrSecondary : List (String × String)
  deriving DecidableEq, Repr

/-- Modelled from the spec: the IPAMBlock record of the missing v1alpha1
package — block CIDR, the pool label, allocations indexed by ordinal
(none is free, some k points into the attributes array), the list of
still-free ordinals, the attributes array, and the soft-delete marker. -/
structure IPAMBlock where
  name : String
  pool : String
  cidr : Cidr
  allocations : List (Option Nat)
  unallocated : List Nat
  attributes : List AllocationAttribute
  deleted : Bool
  deriving DecidableEq, Repr

/-- Modelled from the spec: the IPAMHandle record of the missing v1alpha1
package — a map from block name to reference count, and the soft-delete
marker. ConvertToBlockName is the identity in this model: the keys are
block names. -/
structure IPAMHandle where
  name : String
  blockRefs : List (String × Int)
  deleted : Bool
  deriving DecidableEq, Repr

/-- Phase of a pod (corev1.PodPhase), as far as the source reads it. -/
inductive PodPhase where
  | pending
  | running
  | succeeded
  | failed
  deriving DecidableEq, Repr

/-- A pod as the source reads it from the lister: namespace, name, node,
reported IP (none encodes the empty status field), phase and creation
timestamp. -/
structure Pod where
  namespc : String
  name : String
  nodeName : String
  podIP : Option Nat
  phase : PodPhase
  creationTimestamp : String
  deriving DecidableEq, Repr

/-- The records the IPAM client reads and writes: pools, blocks and
handles in the datastore, the pod lister, and the namespace-to-blocks
configmap (none encodes a missing configmap). -/
structure DSState where
  pools : List IPPool
  blocks : List IPAMBlock
  handles : List IPAMHandle
  pods : List Pod
  nsBlocksCfg : Option (List (String × List String))
  deriving DecidableEq, Repr

/-- Errors of the IPAM core. The generic constructor carries a short tag
standing for a formatted Go error message. -/
inductive Err where
  | noQualifiedPool
  | noFreeBlocks
  | maxRetry
  | unknowIPPoolType
  | notFound
  | generic (tag : String)
  deriving DecidableEq, Repr

/-- datastoreRetries from ipam.go. -/
def datastoreRetries : Nat := 10

/-- Block attribute keys from ipam.go. -/
def attrKeyPod : String := "pod"

def attrKeyNamespace : String := "namespace"

def attrKeyNode : String := "node"

def attrKeyIP : String := "ip"

def attrKeyTimestamp : String := "timestamp"

/-- Modelled from the spec: the sentinel reserved handle identifier of
the missing v1alpha1 package. -/
def reservedHandle : String := "reserved-handle"

/-- The reservation window handed to NewBlock, produced by
StartReservedAddressed and EndReservedAddressed (ints in the source). -/
structure ReservedAttr where
  startOfBlock : Int
  endOfBlock : Int
  deriving DecidableEq, Repr

/-- Name of the block for a CIDR (BlockName of the missing v1alpha1
package renders the CIDR; any injective rendering serves). -/
def blockNameOf (c : Cidr) : String := toString c.base ++ "-" ++ toString c.ones

/-- Whether ordinal i falls in the reservation window. -/
def reservedOrd (total : Nat) (r : ReservedAttr) (i : Nat) : Bool :=
  decide ((i : Int) < r.startOfBlock) || decide ((total : Int) - r.endOfBlock ≤ (i : Int))

/-- Modelled from the spec: NewBlock of the missing v1alpha1 package.
The reservation window (the first startOfBlock and the last endOfBlock
ordinals) is pre-marked allocated to the sentinel reserved attribute,
which is always attribute index 0; the unallocated list holds the
remaining ordinals in ascending order. -/
def NewBlock (pool : IPPool) (c : Cidr) (reserved : Option ReservedAttr) : IPAMBlock :=
  let total := c.numAddresses
  match reserved with
  | none =>
      { name := blockNameOf c, pool := pool.name, cidr := c,
        allocations := List.replicate total none,
        unallocated := List.range total, attributes := [], deleted := false }
  | some r =>
      { name := blockNameOf c, pool := pool.name, cidr := c,
        allocations := (List.range total).map
          (fun i => if reservedOrd total r i then some 0 else none),
        unallocated := (List.range total).filter (fun i => !(reservedOrd total r i)),
        attributes := [⟨reservedHandle, []⟩], deleted := false }

/-- Modelled from the spec: NumFreeAddresses of the missing v1alpha1
package is the number of ordinals still in the unallocated list. -/
def IPAMBlock.numFreeAddresses (b : IPAMBlock) : Nat := b.unallocated.length

/-- Modelled from the spec: NumAddresses of the missing v1alpha1
package. -/
def IPAMBlock.numAddresses (b : IPAMBlock) : Nat := b.cidr.numAddresses

/-- Modelled from the spec: OrdinalToIP — the block network address plus
the ordinal. -/
def IPAMBlock.ordinalToIP (b : IPAMBlock) (ord : Nat) : Nat := b.cidr.base + ord

/-- Modelled from the spec: IPToOrdinal — errors when the IP is outside
the block CIDR, else the offset from the network address. -/
def IPAMBlock.ipToOrdinal (b : IPAMBlock) (ip : Nat) : Except Err Nat :=
  if b.cidr.containsB ip && b.cidr.base ≤ ip then .ok (ip - b.cidr.base)
  else .error (.generic "ip-outside-block")

/-- updateAttribute from ipam.go: return the index of an attribute equal
to the handle id and secondary map, appending it when absent. -/
def updateAttribute (b : IPAMBlock) (handleID : String)
    (attrs : List (String × String)) : Nat × IPAMBlock :=
  let attr : AllocationAttribute := ⟨handleID, attrs⟩
  match b.attributes.findIdx? (fun existing => existing == attr) with
  | some idx => (idx, b)
  | none => (b.attributes.length, { b with attributes := b.attributes ++ [attr] })

/-- ListBlocks from ipam.go: the blocks carrying the pool name label. -/
def ListBlocks (st : DSState) (pool : String) : List IPAMBlock :=
  st.blocks.filter (fun b => b.pool == pool)

/-- Lister lookup of a pool by name (ippoolsLister.Get). -/
def getPool (st : DSState) (name : String) : Option IPPool :=
  st.pools.find? (fun p => p.name == name)

/-- Replace the block with the same name (an Update of the block). -/
def replaceBlock (st : DSState) (b : IPAMBlock) : DSState :=
  { st with blocks := st.blocks.map (fun x => if x.name == b.name then b else x) }

/-- Remove a block record (the net effect of DeleteBlock). -/
def removeBlock (st : DSState) (name : String) : DSState :=
  { st with blocks := st.blocks.filter (fun x => !(x.name == name)) }

/-- Replace the handle with the same name (an Update of the handle). -/
def replaceHandle (st : DSState) (h : IPAMHandle) : DSState :=
  { st with handles := st.handles.map (fun x => if x.name == h.name then h else x) }

/-- Remove a handle record (the net effect of deleteHandle). -/
def removeHandle (st : DSState) (name : String) : DSState :=
  { st with handles := st.handles.filter (fun x => !(x.name == name)) }

/-- queryBlock from ipam.go: a missing block is NotFound; a block carrying
the soft-delete marker is deleted and reported NotFound. -/
def queryBlock (st : DSState) (name : String) : Except Err IPAMBlock × DSState :=
  match st.blocks.find? (fun b => b.name == name) with
  | none => (.error .notFound, st)
  | some b =>
      if b.deleted then (.error .notFound, removeBlock st name)
      else (.ok b, st)

/-- queryHandle from ipam.go: a missing handle is NotFound; a handle
carrying the soft-delete marker is deleted and reported NotFound. -/
def queryHandle (st : DSState) (handleID : String) : Except Err IPAMHandle × DSState :=
  match st.handles.find? (fun h => h.name == handleID) with
  | none => (.error .notFound, st)
  | some h =>
      if h.deleted then (.error .notFound, removeHandle st handleID)
      else (.ok h, st)

/-- StartReservedAddressed from ipam.go: the ordinal of the range start
within the block, or 0 when the range start is empty or falls outside the
block. -/
def StartReservedAddressed (cidr : Cidr) (r : Option Nat) : Int :=
  match r with
  | none => 0
  | some ip =>
      let ord : Int := (ip : Int) - (cidr.base : Int)
      let numAddresses : Int := (cidr.numAddresses : Int)
      if ord < 0 || ord ≥ numAddresses then 0 else ord

/-- EndReservedAddressed from ipam.go: the count of reserved ordinals at
the top of the block derived from the range end; 0 when the range end is
empty or at or above the block top, the whole block when the range end
precedes the block. -/
def EndReservedAddressed (cidr : Cidr) (r : Option Nat) : Int :=
  let total : Int := (cidr.numAddresses : Int)
  match r with
  | none => 0
  | some ip =>
      let ord : Int := (ip : Int) - (cidr.base : Int)
      if ord < 0 then total
      else if ord ≥ total then 0
      else total - ord - 1

/-- The reservation window both block-creation paths of ipam.go build for
a subnet of the pool. -/
def mkReservedAttr (pool : IPPool) (sub : Cidr) : ReservedAttr :=
  ⟨StartReservedAddressed sub pool.rangeStart, EndReservedAddressed sub pool.rangeEnd⟩

/-- blockGenerator from ipam.go, unrolled to the list of block CIDRs the
closure yields: starting at the pool network address, stride one block
size, while the pool CIDR contains the current address. -/
def genSubnetsAux (c : Cidr) (blockOnes : Nat) (ip : Nat) : List Cidr :=
  if h : c.containsB ip = true then
    ⟨ip, blockOnes⟩ :: genSubnetsAux c blockOnes (ip + 2 ^ (32 - blockOnes))
  else []
termination_by (c.base / c.numAddresses + 1) * c.numAddresses - ip
decreasing_by
  have hsz : 0 < c.numAddresses := pow_pos (by norm_num) _
  have hst : 0 < 2 ^ (32 - blockOnes) := pow_pos (by norm_num) _
  have hdiv : ip / c.numAddresses = c.base / c.numAddresses := by
    simpa [Cidr.containsB] using h
  have h1 := Nat.div_add_mod ip c.numAddresses
  have h2 := Nat.mod_lt ip hsz
  rw [hdiv] at h1
  obtain ⟨G, hG⟩ : ∃ g, c.numAddresses * (c.base / c.numAddresses) = g := ⟨_, rfl⟩
  obtain ⟨F, hF⟩ : ∃ f, (c.base / c.numAddresses + 1) * c.numAddresses = f := ⟨_, rfl⟩
  have hB : F = G + c.numAddresses := by rw [← hG, ← hF]; ring
  rw [hG] at h1
  rw [hF]
  obtain ⟨M, hM⟩ : ∃ mm, ip % c.numAddresses = mm := ⟨_, rfl⟩
  rw [hM] at h1 h2
  clear hG hF hM hdiv h
  omega

/-- The list of block CIDRs blockGenerator yields for a pool. -/
def genSubnets (pool : IPPool) : List Cidr :=
  genSubnetsAux pool.cidr pool.blockSize pool.cidr.base

theorem genSubnetsAux_eq_map (c : Cidr) (bo m : Nat)
    (hszm : c.numAddresses = m * 2 ^ (32 - bo)) :
    ∀ (n : Nat) (ip : Nat), n ≤ m →
      ip = (c.base / c.numAddresses) * c.numAddresses + (m - n) * 2 ^ (32 - bo) →
      genSubnetsAux c bo ip =
        (List.range n).map (fun k => ⟨ip + k * 2 ^ (32 - bo), bo⟩) := by
  have hsz : 0 < c.numAddresses := pow_pos (by norm_num) _
  have hst : 0 < 2 ^ (32 - bo) := pow_pos (by norm_num) _
  intro n
  induction n with
  | zero =>
      intro ip _ hip
      have hip2 : ip = (c.base / c.numAddresses + 1) * c.numAddresses := by
        rw [hip]
        have hms : (m - 0) * 2 ^ (32 - bo) = c.numAddresses := by
          rw [Nat.sub_zero, hszm]
        rw [hms]; ring
      have hcon : c.containsB ip = false := by
        have hd : ip / c.numAddresses = c.base / c.numAddresses + 1 := by
          rw [hip2, Nat.mul_div_cancel _ hsz]
        simp [Cidr.containsB, hd]
      unfold genSubnetsAux
      rw [dif_neg (by simp [hcon])]
      simp
  | succ n ih =>
      intro ip hnm hip
      have hrem : (m - (n + 1)) * 2 ^ (32 - bo) < c.numAddresses := by
        rw [hszm]
        exact (Nat.mul_lt_mul_right hst).mpr (by omega)
      have hd : ip / c.numAddresses = c.base / c.numAddresses := by
        rw [hip, Nat.add_comm, Nat.add_mul_div_right _ _ hsz,
          Nat.div_eq_of_lt hrem, Nat.zero_add]
      have hcon : c.containsB ip = true := by simp [Cidr.containsB, hd]
      unfold genSubnetsAux
      rw [dif_pos (by simp [hcon])]
      have hstep : ip + 2 ^ (32 - bo) =
          (c.base / c.numAddresses) * c.numAddresses + (m - n) * 2 ^ (32 - bo) := by
        have h1 : m - n = (m - (n + 1)) + 1 := by omega
        rw [hip, h1, Nat.succ_mul]
        ring
      rw [ih (ip + 2 ^ (32 - bo)) (by omega) hstep]
      rw [List.range_succ_eq_map, List.map_cons, List.map_map]
      refine congrArg₂ _ (by simp) ?_
      apply List.map_congr_left
      intro k _
      simp only [Function.comp]
      congr 1
      simp only [Nat.succ_eq_add_one]
      ring

/-- findUnclaimedBlock from ipam.go: for a VLAN pool the pool is a single
block at the pool CIDR, with a reservation window only when both range
ends are set; otherwise walk the generated block CIDRs and build a block
at the first one no existing block claims. No free CIDR yields
ErrNoFreeBlocks. -/
def findUnclaimedBlock (st : DSState) (pool : IPPool) : Except Err IPAMBlock :=
  let existsCidrs := (ListBlocks st pool.name).map (fun b => b.cidr)
  match pool.typ with
  | .vlan =>
      if existsCidrs.contains pool.cidr then .error .noFreeBlocks
      else
        let ra : Option ReservedAttr :=
          match pool.rangeStart, pool.rangeEnd with
          | some _, some _ => some (mkReservedAttr pool pool.cidr)
          | _, _ => none
        .ok (NewBlock pool pool.cidr ra)
  | _ =>
      match (genSubnets pool).find? (fun sub => !(existsCidrs.contains sub)) with
      | some sub => .ok (NewBlock pool sub (some (mkReservedAttr pool sub)))
      | none => .error .noFreeBlocks

/-- findOrClaimBlock from ipam.go: the first existing block of the pool
with enough free addresses, else create the first unclaimed one (the
create succeeds in the single-writer model) and check it has enough free
addresses. -/
def findOrClaimBlock (st : DSState) (pool : IPPool) (minFreeIps : Nat) :
    Except Err IPAMBlock × DSState :=
  match (ListBlocks st pool.name).find? (fun b => minFreeIps ≤ b.numFreeAddresses) with
  | some b => (.ok b, st)
  | none =>
      match findUnclaimedBlock st pool with
      | .error e => (.error e, st)
      | .ok b =>
          let st2 := { st with blocks := st.blocks ++ [b] }
          if minFreeIps ≤ b.numFreeAddresses then (.ok b, st2)
          else (.error (.generic "not-enough-free-ips"), st2)

/-- Modelled from the spec: AutoAssign of the missing v1alpha1 IPAMBlock
for one address — pop the first ordinal off the unallocated list, append
the deduplicated attribute, point the allocation at it. An empty
unallocated list yields no address. -/
def IPAMBlock.autoAssignOne (b : IPAMBlock) (handleID : String)
    (attrs : List (String × String)) : List Nat × IPAMBlock :=
  match b.unallocated with
  | [] => ([], b)
  | o :: rest =>
      let p := updateAttribute b handleID attrs
      ([b.cidr.base + o],
        { p.2 with unallocated := rest, allocations := p.2.allocations.set o (some p.1) })

/-- Modelled from the spec: IncrementBlock of the missing v1alpha1
IPAMHandle — add num to the reference count under the block key,
inserting the key when absent. -/
def incBlockRefs (refs : List (String × Int)) (key : String) (num : Int) :
    List (String × Int) :=
  if refs.any (fun e => e.1 == key) then
    refs.map (fun e => if e.1 == key then (e.1, e.2 + num) else e)
  else refs ++ [(key, num)]

/-- incrementHandle from ipam.go in the single-writer model: create the
handle with the one block count when missing, else increment in place. -/
def incrementHandle (st : DSState) (handleID : String) (b : IPAMBlock) (num : Int) :
    DSState :=
  match queryHandle st handleID with
  | (.error _, st1) =>
      { st1 with handles := st1.handles ++ [⟨handleID, incBlockRefs [] b.name num, false⟩] }
  | (.ok h, st1) =>
      replaceHandle st1 { h with blockRefs := incBlockRefs h.blockRefs b.name num }

/-- assignFromExistingBlock from ipam.go: take one address from the
block, increment the handle, write the block back. -/
def assignFromExistingBlock (st : DSState) (b : IPAMBlock) (handleID : String)
    (attrs : List (String × String)) : Except Err Nat × DSState :=
  let p := b.autoAssignOne handleID attrs
  match p.1 with
  | [] => (.error (.generic "block-has-no-available-ip"), st)
  | ip :: _ =>
      let st1 := incrementHandle st handleID p.2 1
      let st2 := replaceBlock st1 p.2
      (.ok ip, st2)

/-- autoAssign from ipam.go in the single-writer model: claim a block
with one free address and assign from it. -/
def autoAssign (st : DSState) (handleID : String) (attrs : List (String × String))
    (pool : IPPool) : Except Err (IPAMBlock × Nat) × DSState :=
  match findOrClaimBlock st pool 1 with
  | (.error e, st1) => (.error e, st1)
  | (.ok b, st1) =>
      match assignFromExistingBlock st1 b handleID attrs with
      | (.error e, st2) => (.error e, st2)
      | (.ok ip, st2) => (.ok (b, ip), st2)

/-- Outcome of one attempt of the AutoAssign retry loop (one call of
c.autoAssign): an assigned block and address, or an error. The outcome
per attempt is an oracle, since it depends on the datastore and on
concurrent writers. -/
inductive AttemptResult where
  | assigned (blockName : String) (ip : Nat)
  | failedTry (e : Err)
  deriving DecidableEq, Repr

/-- The retry loop of AutoAssign from ipam.go: up to the fuel many
attempts, the pool is fetched and validated again on each attempt;
ErrNoFreeBlocks aborts at once; any other attempt error retries; an
exhausted loop reports ErrMaxRetry. -/
def autoAssignLoop (pools : List IPPool) (poolName : String)
    (att : Nat → AttemptResult) : Nat → Nat → Except Err (String × Nat)
  | _, 0 => .error .maxRetry
  | i, fuel + 1 =>
      match pools.find? (fun p => p.name == poolName) with
      | none => .error .noQualifiedPool
      | some pool =>
          if pool.disabled then .error .noQualifiedPool
          else if pool.typeInvalid then .error .unknowIPPoolType
          else
            match att i with
            | .assigned b ip => .ok (b, ip)
            | .failedTry e =>
                if e == .noFreeBlocks then .error .noFreeBlocks
                else autoAssignLoop pools poolName att (i + 1) fuel

/-- AutoAssign from ipam.go, over the datastoreRetries attempt budget. -/
def AutoAssign (pools : List IPPool) (poolName : String)
    (att : Nat → AttemptResult) : Except Err (String × Nat) :=
  autoAssignLoop pools poolName att 0 datastoreRetries

/-- A pool whose CIDR is exhausted: a non-VLAN pool, every existing block
of the pool has no free address, and every block CIDR the generator can
yield is already claimed. -/
def poolExhausted (st : DSState) (pool : IPPool) : Prop :=
  pool.typ = .routed ∧
  (∀ b ∈ ListBlocks st pool.name, b.numFreeAddresses = 0) ∧
  (∀ sub ∈ genSubnets pool, sub ∈ (ListBlocks st pool.name).map (fun b => b.cidr))

theorem autoAssignLoop_all_other (pools : List IPPool) (poolName : String)
    (att : Nat → AttemptResult) (p : IPPool)
    (hf : pools.find? (fun q => q.name == poolName) = some p)
    (hd : p.disabled = false) (ht : p.typeInvalid = false) :
    ∀ (fuel i : Nat),
      (∀ j, i ≤ j → j < i + fuel → ∃ e, att j = .failedTry e ∧ e ≠ .noFreeBlocks) →
      autoAssignLoop pools poolName att i fuel = .error .maxRetry := by
  intro fuel
  induction fuel with
  | zero => intro i _; rfl
  | succ n ih =>
      intro i hall
      obtain ⟨e, he, hne⟩ := hall i (le_refl _) (by omega)
      have hbeq : (e == Err.noFreeBlocks) = false := by
        cases e <;> simp_all
      simp only [autoAssignLoop, hf, hd, ht, he, hbeq, Bool.false_eq_true, if_false]
      exact ih (i + 1) (fun j h1 h2 => hall j (by omega) (by omega))

end Ipam

/-- C1 (amended). AutoAssign error classification: a missing or disabled
pool yields ErrNoQualifiedPool; an invalid-type pool yields
ErrUnknowIPPoolType, not ErrNoQualifiedPool; an attempt failing with
ErrNoFreeBlocks makes AutoAssign return ErrNoFreeBlocks at once, the
result not depending on any later attempt; all ten attempts failing for
any other reason yield ErrMaxRetry; and on a pool whose CIDR is exhausted
the underlying autoAssign attempt fails with ErrNoFreeBlocks. -/
theorem AutoAssign_error_classes (pools : List Ipam.IPPool) (poolName : String)
    (att : Nat → Ipam.AttemptResult) (st : Ipam.DSState) (handleID : String)
    (attrs : List (String × String)) (pool : Ipam.IPPool) :
    (pools.find? (fun p => p.name == poolName) = none →
      Ipam.AutoAssign pools poolName att = .error .noQualifiedPool) ∧
    (∀ p, pools.find? (fun q => q.name == poolName) = some p → p.disabled = true →
      Ipam.AutoAssign pools poolName att = .error .noQualifiedPool) ∧
    (∀ p, pools.find? (fun q => q.name == poolName) = some p → p.disabled = false →
      p.typeInvalid = true →
      Ipam.AutoAssign pools poolName att = .error .unknowIPPoolType) ∧
    (∀ p, pools.find? (fun q => q.name == poolName) = some p → p.disabled = false →
      p.typeInvalid = false →
      ∀ att2 : Nat → Ipam.AttemptResult, att2 0 = .failedTry .noFreeBlocks →
        Ipam.AutoAssign pools poolName att2 = .error .noFreeBlocks) ∧
    (∀ p, pools.find? (fun q => q.name == poolName) = some p → p.disabled = false →
      p.typeInvalid = false →
      (∀ i, i < Ipam.datastoreRetries →
        ∃ e, att i = .failedTry e ∧ e ≠ .noFreeBlocks) →
      Ipam.AutoAssign pools poolName att = .error .maxRetry) ∧
    (Ipam.poolExhausted st pool →
      (Ipam.autoAssign st handleID attrs pool).1 = .error .noFreeBlocks) := by
  refine ⟨?_, ?_, ?_, ?_, ?_, ?_⟩
  · intro h
    show Ipam.autoAssignLoop pools poolName att 0 Ipam.datastoreRetries = _
    rw [show Ipam.datastoreRetries = 9 + 1 from rfl]
    simp only [Ipam.autoAssignLoop, h]
  · intro p hp hd
    show Ipam.autoAssignLoop pools poolName att 0 Ipam.datastoreRetries = _
    rw [show Ipam.datastoreRetries = 9 + 1 from rfl]
    simp only [Ipam.autoAssignLoop, hp, hd, if_true]
  · intro p hp hd ht
    show Ipam.autoAssignLoop pools poolName att 0 Ipam.datastoreRetries = _
    rw [show Ipam.datastoreRetries = 9 + 1 from rfl]
    simp only [Ipam.autoAssignLoop, hp, hd, ht, Bool.false_eq_true, if_false, if_true]
  · intro p hp hd ht att2 h0
    show Ipam.autoAssignLoop pools poolName att2 0 Ipam.datastoreRetries = _
    rw [show Ipam.datastoreRetries = 9 + 1 from rfl]
    simp only [Ipam.autoAssignLoop, hp, hd, ht, h0, Bool.false_eq_true, if_false]
    simp
  · intro p hp hd ht hall
    exact Ipam.autoAssignLoop_all_other pools poolName att p hp hd ht
      Ipam.datastoreRetries 0 (fun j h1 h2 => hall j (by omega))
  · rintro ⟨htyp, hfree, hsubs⟩
    have hfind : (Ipam.ListBlocks st pool.name).find?
        (fun b => decide (1 ≤ b.numFreeAddresses)) = none := by
      apply List.find?_eq_none.mpr
      intro b hb
      simp [hfree b hb]
    have hgen : (Ipam.genSubnets pool).find?
        (fun sub => !(((Ipam.ListBlocks st pool.name).map (fun b => b.cidr)).contains sub)) =
        none := by
      apply List.find?_eq_none.mpr
      intro sub hsub
      have hm := List.mem_map.mp (hsubs sub hsub)
      simp
      obtain ⟨x, hx, hcx⟩ := hm
      exact ⟨x, hx, hcx⟩
    have huncl : Ipam.findUnclaimedBlock st pool = .error .noFreeBlocks := by
      rw [Ipam.findUnclaimedBlock, htyp]
      simp only [hgen]
    rw [Ipam.autoAssign, Ipam.findOrClaimBlock, hfind, huncl]

/-- Concrete pool with an invalid type tag, for the C1 counterexample. -/
def poolInvalidW : Ipam.IPPool :=
  { name := "pool-x", cidr := ⟨167772160, 16⟩, blockSize := 24,
    rangeStart := none, rangeEnd := none, disabled := false, typ := .unknownType }

/-- Attempt oracle where every attempt fails with a retryable error. -/
def attOtherW : Nat → Ipam.AttemptResult := fun _ => .failedTry (.generic "conflict")

/-- Counterexample for C1 as stated: AutoAssign on a pool of invalid type
returns ErrUnknowIPPoolType, which is not the NoQualifiedPool error the
claim names for that case. -/
theorem AutoAssign_invalid_type_error :
    Ipam.AutoAssign [poolInvalidW] "pool-x" attOtherW = .error .unknowIPPoolType ∧
    Ipam.Err.unknowIPPoolType ≠ Ipam.Err.noQualifiedPool :=
  ⟨rfl, by decide⟩

/-- Tiny exhausted pool: one /30 pool whose only /30 block exists with an
empty unallocated list. -/
def poolTinyW : Ipam.IPPool :=
  { name := "pool-t", cidr := ⟨0, 30⟩, blockSize := 30,
    rangeStart := none, rangeEnd := none, disabled := false, typ := .routed }

/-- The claimed block of poolTinyW with every address taken. -/
def blockTinyW : Ipam.IPAMBlock :=
  { name := Ipam.blockNameOf ⟨0, 30⟩, pool := "pool-t", cidr := ⟨0, 30⟩,
    allocations := [some 1, some 1, some 1, some 1], unallocated := [],
    attributes := [⟨Ipam.reservedHandle, []⟩, ⟨"h-a", []⟩], deleted := false }

/-- Datastore state in which poolTinyW is exhausted. -/
def stTinyW : Ipam.DSState :=
  { pools := [poolTinyW], blocks := [blockTinyW], handles := [], pods := [],
    nsBlocksCfg := some [] }

theorem genSubnets_poolTinyW : Ipam.genSubnets poolTinyW = [⟨0, 30⟩] := by
  have h := Ipam.genSubnetsAux_eq_map poolTinyW.cidr 30 1 (by rfl) 1 0 (by norm_num) (by rfl)
  simpa [Ipam.genSubnets, poolTinyW] using h

/-- Sanity: the exhaustion hypothesis of the C1 theorem is satisfiable —
on the concrete exhausted state the pure autoAssign attempt returns
ErrNoFreeBlocks. -/
theorem autoAssign_exhausted_sanity :
    (Ipam.autoAssign stTinyW "handle-a" [] poolTinyW).1 = .error .noFreeBlocks := by
  have hgen := genSubnets_poolTinyW
  rw [Ipam.autoAssign, Ipam.findOrClaimBlock]
  have hfind : (Ipam.ListBlocks stTinyW poolTinyW.name).find?
      (fun b => decide (1 ≤ b.numFreeAddresses)) = none := by
    simp [Ipam.ListBlocks, stTinyW, blockTinyW, poolTinyW, Ipam.IPAMBlock.numFreeAddresses]
  have huncl : Ipam.findUnclaimedBlock stTinyW poolTinyW = .error .noFreeBlocks := by
    rw [Ipam.findUnclaimedBlock, show poolTinyW.typ = .routed from rfl, hgen]
    simp [Ipam.ListBlocks, stTinyW, blockTinyW, poolTinyW]
  rw [hfind, huncl]

namespace Ipam

/-- strings.Contains: the second string occurs inside the first. -/
def containsStr (s sub : String) : Bool := decide (sub.data <:+: s.data)

/-- The handle-id search both setBlockAttributes and RecordUsedIP run:
the name of the last listed handle whose name contains the pod key, or
the empty string. -/
def handleForPodKey (handles : List IPAMHandle) (podKey : String) : String :=
  handles.foldl (fun acc h => if containsStr h.name podKey then h.name else acc) ""

/-- The attribute map setBlockAttributes and recordUsedIP build from a
pod (a Go map; modelled as the key-value list in source order). -/
def podAttrs (ns nm node ipStr ts : String) : List (String × String) :=
  [(attrKeyNamespace, ns), (attrKeyPod, nm), (attrKeyNode, node),
    (attrKeyIP, ipStr), (attrKeyTimestamp, ts)]

/-- The per-pod body of the update loop in setBlockAttributes: a pod with
an IP inside the block CIDR and a phase that is neither Succeeded nor
Failed gets its ordinal removed from the unallocated list and an
allocation recorded under the found or synthesized handle id. -/
def applyPodAttr (handles : List IPAMHandle) (b : IPAMBlock) (pod : Pod) : IPAMBlock :=
  match pod.podIP with
  | none => b
  | some ip =>
      if b.cidr.containsB ip && !(pod.phase == .succeeded) && !(pod.phase == .failed) then
        let podKey := pod.namespc ++ "-" ++ pod.name
        let hid0 := handleForPodKey handles podKey
        let hid := if hid0 == "" then podKey else hid0
        match b.ipToOrdinal ip with
        | .error _ => b
        | .ok ordinal =>
            if b.unallocated.contains ordinal then
              let p := updateAttribute b hid
                (podAttrs pod.namespc pod.name pod.nodeName (toString ip)
                  pod.creationTimestamp)
              { p.2 with unallocated := p.2.unallocated.erase ordinal,
                         allocations := p.2.allocations.set ordinal (some p.1) }
            else b
      else b

/-- setBlockAttributes from ipam.go: a missing configmap is an error; a
block in no namespace of the configmap, or with no pods in its
namespaces, is returned unchanged; otherwise every pod of those
namespaces is folded into the block. -/
def setBlockAttributes (st : DSState) (blockName : String) (b : IPAMBlock) :
    Except Err IPAMBlock :=
  match st.nsBlocksCfg with
  | none => .error (.generic "get-configmap-failed")
  | some apps =>
      let blockNs := (apps.filter (fun e => e.2.contains blockName)).map (fun e => e.1)
      if blockNs.isEmpty then .ok b
      else
        let allBlockPods := blockNs.bind (fun ns => st.pods.filter (fun p => p.namespc == ns))
        if allBlockPods.isEmpty then .ok b
        else .ok (allBlockPods.foldl (applyPodAttr st.handles) b)

/-- The creation loop of AutoGenerateBlocksFromPool: for each generated
subnet not in the exists map (built once, before the loop), build the
block with its reservation window, run setBlockAttributes, and create it
(creation succeeds in the single-writer model). -/
def autoGenGo (st : DSState) (pool : IPPool) (ex : List Cidr) :
    List Cidr → Except Err Unit × DSState
  | [] => (.ok (), st)
  | sub :: rest =>
      if ex.contains sub then autoGenGo st pool ex rest
      else
        let blk := NewBlock pool sub (some (mkReservedAttr pool sub))
        match setBlockAttributes st blk.name blk with
        | .error e => (.error e, st)
        | .ok blk2 => autoGenGo { st with blocks := st.blocks ++ [blk2] } pool ex rest

/-- The block the generation paths build for a subnet of a pool. -/
def mkGenBlock (pool : IPPool) (sub : Cidr) : IPAMBlock :=
  NewBlock pool sub (some (mkReservedAttr pool sub))

/-- AutoGenerateBlocksFromPool from ipam.go. -/
def AutoGenerateBlocksFromPool (st : DSState) (poolName : String) :
    Except Err Unit × DSState :=
  match getPool st poolName with
  | none => (.error .noQualifiedPool, st)
  | some pool =>
      let ex := (ListBlocks st pool.name).map (fun b => b.cidr)
      autoGenGo st pool ex (genSubnets pool)

theorem autoGenGo_fresh (pool : IPPool) (subs : List Cidr) :
    ∀ st : DSState, st.nsBlocksCfg = some [] →
      autoGenGo st pool [] subs =
        (.ok (), { st with blocks := st.blocks ++ subs.map (mkGenBlock pool) }) := by
  induction subs with
  | nil => intro st h; simp [autoGenGo]
  | cons sub rest ih =>
      intro st h
      have hattr : setBlockAttributes st (mkGenBlock pool sub).name (mkGenBlock pool sub) =
          .ok (mkGenBlock pool sub) := by
        rw [setBlockAttributes, h]
        simp
      have hattr2 : setBlockAttributes st
          (NewBlock pool sub (some (mkReservedAttr pool sub))).name
          (NewBlock pool sub (some (mkReservedAttr pool sub))) =
          .ok (NewBlock pool sub (some (mkReservedAttr pool sub))) := hattr
      simp only [autoGenGo, List.contains, List.elem_nil, Bool.false_eq_true, if_false,
        hattr2]
      rw [ih _ (by simp [h])]
      simp [mkGenBlock]

end Ipam

/-- The S1 pool of the spec: CIDR 10.20.0.0/16 (numeric 169082880),
block size 24, range start 10.20.0.10, range end 10.20.0.250. -/
def poolS1 : Ipam.IPPool :=
  { name := "pool-s1", cidr := ⟨169082880, 16⟩, blockSize := 24,
    rangeStart := some 169082890, rangeEnd := some 169083130,
    disabled := false, typ := .routed }

/-- The k-th /24 subnet of the S1 pool. -/
def s1Subnet (k : Nat) : Ipam.Cidr := ⟨169082880 + k * 256, 24⟩

/-- The block AutoGenerateBlocksFromPool creates for the k-th subnet. -/
def s1Block (k : Nat) : Ipam.IPAMBlock :=
  Ipam.NewBlock poolS1 (s1Subnet k) (some (Ipam.mkReservedAttr poolS1 (s1Subnet k)))

/-- Fresh datastore holding only the S1 pool and an empty namespace
configmap. -/
def stS1 : Ipam.DSState :=
  { pools := [poolS1], blocks := [], handles := [], pods := [], nsBlocksCfg := some [] }

theorem genSubnets_S1 : Ipam.genSubnets poolS1 = (List.range 256).map s1Subnet := by
  have h := Ipam.genSubnetsAux_eq_map poolS1.cidr 24 256 (by decide) 256 169082880
    (by norm_num) (by decide)
  rw [Ipam.genSubnets]
  show Ipam.genSubnetsAux poolS1.cidr 24 169082880 = _
  rw [h]
  apply List.map_congr_left
  intro k _
  show (⟨169082880 + k * 2 ^ (32 - 24), 24⟩ : Ipam.Cidr) = s1Subnet k
  norm_num [s1Subnet]

theorem autoGen_S1 : Ipam.AutoGenerateBlocksFromPool stS1 "pool-s1" =
    (.ok (), { stS1 with blocks := (List.range 256).map s1Block }) := by
  have hgo := Ipam.autoGenGo_fresh poolS1 (Ipam.genSubnets poolS1) stS1 rfl
  show Ipam.autoGenGo stS1 poolS1 [] (Ipam.genSubnets poolS1) = _
  rw [hgo, genSubnets_S1, List.map_map]
  rfl

theorem endReserved_below_block (c : Ipam.Cidr) (re : Nat) (h : re < c.base) :
    Ipam.EndReservedAddressed c (some re) = (c.numAddresses : Int) := by
  have hord : ((re : Int) - (c.base : Int) < 0) := by omega
  simp [Ipam.EndReservedAddressed, hord]

theorem newBlock_fully_reserved (pool : Ipam.IPPool) (c : Ipam.Cidr)
    (r : Ipam.ReservedAttr) (h : (c.numAddresses : Int) ≤ r.endOfBlock) :
    (Ipam.NewBlock pool c (some r)).unallocated = [] ∧
    (∀ a ∈ (Ipam.NewBlock pool c (some r)).allocations, a = some 0) := by
  have hres : ∀ i : Nat, Ipam.reservedOrd c.numAddresses r i = true := by
    intro i
    rw [Ipam.reservedOrd]
    have : ((c.numAddresses : Int) - r.endOfBlock ≤ (i : Int)) := by
      have : (0 : Int) ≤ (i : Int) := Int.natCast_nonneg i
      omega
    simp [this]
  constructor
  · rw [Ipam.NewBlock]
    simp only []
    apply List.filter_eq_nil.mpr
    intro i _
    simp [hres i]
  · rw [Ipam.NewBlock]
    simp only []
    intro a ha
    obtain ⟨i, _, hfa⟩ := List.mem_map.mp ha
    rw [← hfa, if_pos (hres i)]

theorem s1Block_k_fully_reserved (k : Nat) (h1 : 1 ≤ k) :
    (s1Block k).unallocated = [] ∧ (∀ a ∈ (s1Block k).allocations, a = some 0) := by
  have hend : Ipam.EndReservedAddressed (s1Subnet k) (some 169083130) =
      ((s1Subnet k).numAddresses : Int) := by
    apply endReserved_below_block
    show 169083130 < 169082880 + k * 256
    have : 256 ≤ k * 256 := by
      calc 256 = 1 * 256 := by norm_num
      _ ≤ k * 256 := Nat.mul_le_mul_right 256 h1
    omega
  apply newBlock_fully_reserved
  show ((s1Subnet k).numAddresses : Int) ≤ (Ipam.mkReservedAttr poolS1 (s1Subnet k)).endOfBlock
  rw [show (Ipam.mkReservedAttr poolS1 (s1Subnet k)).endOfBlock =
    Ipam.EndReservedAddressed (s1Subnet k) (some 169083130) from rfl, hend]

/-- C2 (amended). On the S1 pool, AutoGenerateBlocksFromPool succeeds and
creates exactly 256 blocks, the k-th at subnet 10.20.k.0/24 with capacity
256; in the first block the ordinals 0 to 9 (range start) and 251 to 255
(five ordinals, range-end math) are reserved, the rest are free, so its
unallocated count is 241; but in every other block the range-end math
reserves the whole block, so ordinals 0 to 9 are not specially reserved
there and the unallocated count is 0, not 241. -/
theorem AutoGenerateBlocksFromPool_S1 :
    (Ipam.AutoGenerateBlocksFromPool stS1 "pool-s1").1 = .ok () ∧
    (Ipam.AutoGenerateBlocksFromPool stS1 "pool-s1").2.blocks.length = 256 ∧
    (∀ k, k < 256 →
      (Ipam.AutoGenerateBlocksFromPool stS1 "pool-s1").2.blocks.get? k =
        some (s1Block k) ∧
      (s1Block k).cidr = s1Subnet k ∧ (s1Block k).numAddresses = 256) ∧
    ((s1Block 0).unallocated.length = 241 ∧
      (∀ i, i < 10 → (s1Block 0).allocations.get? i = some (some 0)) ∧
      (∀ i, 251 ≤ i → i < 256 → (s1Block 0).allocations.get? i = some (some 0)) ∧
      (∀ i, 10 ≤ i → i < 251 → (s1Block 0).allocations.get? i = some none)) ∧
    (∀ k, 1 ≤ k → k < 256 →
      (s1Block k).unallocated = [] ∧ (s1Block k).unallocated.length = 0) := by
  refine ⟨by rw [autoGen_S1], by rw [autoGen_S1]; simp, ?_, ?_, ?_⟩
  · intro k hk
    refine ⟨?_, rfl, rfl⟩
    rw [autoGen_S1]
    simp only []
    rw [List.get?_map, List.get?_range hk]
    rfl
  · exact ⟨by decide, by decide, by decide, by decide⟩
  · intro k h1 _
    obtain ⟨hempty, _⟩ := s1Block_k_fully_reserved k h1
    exact ⟨hempty, by rw [hempty]; rfl⟩

/-- Counterexample for C2 as stated: the block generated for the second
subnet, 10.20.1.0/24, has 0 unallocated addresses, not the 241 the claim
asserts for every one of the 256 blocks. -/
theorem autoGen_S1_second_block_empty :
    ((Ipam.AutoGenerateBlocksFromPool stS1 "pool-s1").2.blocks.get? 1).map
      (fun b => b.unallocated.length) = some 0 ∧ (0 : Nat) ≠ 241 := by
  refine ⟨?_, by decide⟩
  rw [autoGen_S1]
  simp only []
  rw [List.get?_map, List.get?_range (by norm_num)]
  rw [show Option.map s1Block (some 1) = some (s1Block 1) from rfl,
    show ((some (s1Block 1)).map (fun b => b.unallocated.length)) =
      some (s1Block 1).unallocated.length from rfl,
    (s1Block_k_fully_reserved 1 (le_refl 1)).1]
  rfl

namespace Ipam

/-- A pod that currently uses the IP and is live (phase neither Succeeded
nor Failed) — the guard predicate of ReleaseLeakIP. -/
def livePodUsing (ip : Nat) (p : Pod) : Bool :=
  p.podIP == some ip && !(p.phase == .succeeded) && !(p.phase == .failed)

/-- getBlockForIP from ipam.go: the last listed pool whose CIDR contains
the IP (the loop keeps overwriting poolName), then the first block of
that pool whose CIDR contains the IP. -/
def getBlockForIP (st : DSState) (ip : Nat) : Except Err IPAMBlock :=
  let poolName := st.pools.foldl
    (fun acc p => if p.cidr.containsB ip then p.name else acc) ""
  if poolName == "" then .error (.generic "ip-not-in-any-ippool")
  else
    match (ListBlocks st poolName).find? (fun b => b.cidr.containsB ip) with
    | some b => .ok b
    | none => .error (.generic "ip-not-in-any-ipamblock")

/-- Modelled from the spec: ReleaseByIP of the missing v1alpha1 IPAMBlock
— invert the allocation at the ordinal of the IP and push the ordinal
back onto the unallocated list; an unallocated ordinal is an error. -/
def IPAMBlock.releaseByIP (b : IPAMBlock) (ip : Nat) : Except Err IPAMBlock :=
  match b.ipToOrdinal ip with
  | .error e => .error e
  | .ok ord =>
      match b.allocations.getD ord none with
      | none => .error (.generic "ordinal-not-allocated")
      | some _ => .ok { b with allocations := b.allocations.set ord none,
                               unallocated := b.unallocated ++ [ord] }

/-- ReleaseIP from ipam.go: query the block, check the IP belongs to its
CIDR, release by IP and write the block back. -/
def ReleaseIP (st : DSState) (ip : Nat) (blockName : String) :
    Except Err Unit × DSState :=
  match queryBlock st blockName with
  | (.error _, st1) => (.error (.generic "query-block-failed"), st1)
  | (.ok b, st1) =>
      if b.cidr.containsB ip then
        match b.releaseByIP ip with
        | .error _ => (.error (.generic "release-by-ip-failed"), st1)
        | .ok b2 => (.ok (), replaceBlock st1 b2)
      else (.error (.generic "ip-not-belong-to-block"), st1)

/-- Modelled from the spec: ReleaseByHandle of the missing v1alpha1
IPAMBlock — free every ordinal whose attribute carries the handle id as
primary, returning how many were freed. -/
def IPAMBlock.releaseByHandleOp (b : IPAMBlock) (handleID : String) :
    Nat × IPAMBlock :=
  let ords := (List.range b.allocations.length).filter (fun i =>
    match b.allocations.getD i none with
    | some k => ((b.attributes.get? k).map (fun a => a.attrPrimary)) == some handleID
    | none => false)
  (ords.length,
    { b with allocations := ords.foldl (fun acc o => acc.set o none) b.allocations,
             unallocated := b.unallocated ++ ords })

/-- Modelled from the spec: DecrementBlock of the missing v1alpha1
IPAMHandle — subtract from the reference count under the block key,
dropping the key at zero; a missing key or an underflow is an error. -/
def decBlockRefs (refs : List (String × Int)) (key : String) (num : Int) :
    Except Err (List (String × Int)) :=
  match refs.find? (fun e => e.1 == key) with
  | none => .error (.generic "decrement-missing-block")
  | some e =>
      if e.2 < num then .error (.generic "decrement-below-zero")
      else if e.2 - num == 0 then .ok (refs.filter (fun x => !(x.1 == key)))
      else .ok (refs.map (fun x => if x.1 == key then (x.1, e.2 - num) else x))

/-- decrementHandle from ipam.go in the single-writer model: decrement
the handle for the block; an empty handle is deleted, otherwise it is
updated. -/
def decrementHandle (st : DSState) (handleID blockKey : String) (num : Int) :
    Except Err Unit × DSState :=
  match queryHandle st handleID with
  | (.error e, st1) => (.error e, st1)
  | (.ok h, st1) =>
      match decBlockRefs h.blockRefs blockKey num with
      | .error e => (.error e, st1)
      | .ok refs =>
          if refs.isEmpty then (.ok (), removeHandle st1 handleID)
          else (.ok (), replaceHandle st1 { h with blockRefs := refs })

/-- releaseByHandle (per block) from ipam.go in the single-writer model:
a missing block or a block without addresses of the handle is fine;
otherwise the block is written back and the handle decremented, a
decrement error being logged and swallowed. -/
def releaseByHandleInBlock (st : DSState) (handleID blockName : String) :
    Except Err Unit × DSState :=
  match queryBlock st blockName with
  | (.error _, st1) => (.ok (), st1)
  | (.ok b, st1) =>
      let p := b.releaseByHandleOp handleID
      if p.1 == 0 then (.ok (), st1)
      else
        let st2 := replaceBlock st1 p.2
        let d := decrementHandle st2 handleID p.2.name (p.1 : Int)
        (.ok (), d.2)

/-- The loop of ReleaseByHandle over the blocks the handle references. -/
def releaseRefsLoop (handleID : String) :
    DSState → List (String × Int) → Except Err Unit × DSState
  | st, [] => (.ok (), st)
  | st, kv :: rest =>
      match releaseByHandleInBlock st handleID kv.1 with
      | (.error e, st1) => (.error e, st1)
      | (.ok _, st1) => releaseRefsLoop handleID st1 rest

/-- ReleaseByHandle from ipam.go: a missing handle releases nothing and
succeeds; otherwise every block the handle references is released. -/
def ReleaseByHandle (st : DSState) (handleID : String) :
    Except Err Unit × DSState :=
  match queryHandle st handleID with
  | (.error _, st1) => (.ok (), st1)
  | (.ok h, st1) => releaseRefsLoop handleID st1 h.blockRefs

/-- Which release path ReleaseLeakIP took. -/
inductive RelAction where
  | byHandle (handleID : String)
  | byIP (ip : Nat) (blockName : String)
  deriving DecidableEq, Repr

/-- ReleaseLeakIP from ipam.go. The first component of the result is the
returned error, the second the datastore afterwards, the third the
release path taken. The IP argument is none for an unparsable string. -/
def ReleaseLeakIP (st : DSState) (ipArg : Option Nat) (blockName : Option String)
    (ingoreError : Bool) : Except Err Unit × DSState × List RelAction :=
  match ipArg with
  | none => (.error (.generic "invalid-ip-format"), st, [])
  | some ip =>
      match st.pods.find? (livePodUsing ip) with
      | some _ =>
          if ingoreError then (.ok (), st, [])
          else (.error (.generic "ip-used-by-pod"), st, [])
      | none =>
          match (match blockName with
            | some bn =>
                match queryBlock st bn with
                | (.error e, st1) => (.error e, st1)
                | (.ok b, st1) =>
                    if b.cidr.containsB ip then (.ok b, st1)
                    else (.error (.generic "ip-not-belong-to-block"), st1)
            | none =>
                match getBlockForIP st ip with
                | .error e => (.error e, st)
                | .ok b => (.ok b, st) : Except Err IPAMBlock × DSState) with
          | (.error e, st1) => (.error e, st1, [])
          | (.ok ipBlock, st1) =>
              match ipBlock.ipToOrdinal ip with
              | .error e => (.error e, st1, [])
              | .ok ordinal =>
                  match ipBlock.allocations.getD ordinal none with
                  | none =>
                      if ingoreError then (.ok (), st1, [])
                      else (.error (.generic "ip-not-allocated"), st1, [])
                  | some attrIndex =>
                      match ipBlock.attributes.get? attrIndex with
                      | none =>
                          let r := ReleaseIP st1 ip ipBlock.name
                          (r.1, r.2, [.byIP ip ipBlock.name])
                      | some attr =>
                          if attr.attrPrimary == "" then
                            let r := ReleaseIP st1 ip ipBlock.name
                            (r.1, r.2, [.byIP ip ipBlock.name])
                          else
                            match queryHandle st1 attr.attrPrimary with
                            | (.error _, st2) =>
                                let r := ReleaseIP st2 ip ipBlock.name
                                (r.1, r.2, [.byIP ip ipBlock.name])
                            | (.ok _, st2) =>
                                let r := ReleaseByHandle st2 attr.attrPrimary
                                (.ok (), r.2, [.byHandle attr.attrPrimary])

/-- The used-ip option of RecordUsedIP (ipam_types.go). -/
structure UsedIPOption where
  podNamespace : String
  podName : String
  nodeName : String
  blockName : String
  handleID : String
  deriving DecidableEq, Repr

/-- recordUsedIP (lower case) from ipam.go: look the pod up (a missing
pod is a silent success), check it still reports the IP, and allocate the
ordinal in the block when it is still in the unallocated list, writing
the block back either way. -/
def recordUsedIP (st : DSState) (ip : Nat)
    (blockName podNamespace podName handldID : String) : Except Err Unit × DSState :=
  match st.pods.find? (fun p => p.namespc == podNamespace && p.name == podName) with
  | none => (.ok (), st)
  | some pod =>
      if !(pod.podIP == some ip) then (.error (.generic "ip-not-allocated-to-pod"), st)
      else
        match queryBlock st blockName with
        | (.error e, st1) => (.error e, st1)
        | (.ok block, st1) =>
            match block.ipToOrdinal ip with
            | .error e => (.error e, st1)
            | .ok ordinal =>
                let attrs := podAttrs podNamespace podName pod.nodeName (toString ip)
                  pod.creationTimestamp
                let block2 :=
                  if block.unallocated.contains ordinal then
                    let p := updateAttribute block handldID attrs
                    { p.2 with unallocated := p.2.unallocated.erase ordinal,
                               allocations := p.2.allocations.set ordinal (some p.1) }
                  else block
                (.ok (), replaceBlock st1 block2)

/-- RecordUsedIP from ipam.go: find the block of the IP; an already
allocated ordinal is an error whatever the fix flag (the fix branch of
the source is commented out); when the option lacks pod identity, the
single pod of any phase reporting the IP fills it in, the handle id being
synthesized as namespace-podname; then the allocation is recorded. -/
def RecordUsedIP (st : DSState) (ip : Nat) (opt : UsedIPOption) (fix : Bool) :
    Except Err Unit × DSState :=
  match getBlockForIP st ip with
  | .error e => (.error e, st)
  | .ok ipBlock =>
      match ipBlock.ipToOrdinal ip with
      | .error e => (.error e, st)
      | .ok ordinal =>
          match ipBlock.allocations.getD ordinal none with
          | some _ => (.error (.generic "ip-already-allocated"), st)
          | none =>
              let opt1 := { opt with blockName := ipBlock.name }
              if opt1.blockName == "" || opt1.podNamespace == "" ||
                  opt1.podName == "" || opt1.handleID == "" then
                match st.pods.filter (fun p => p.podIP == some ip) with
                | [] => (.error (.generic "ip-not-belong-to-any-pod"), st)
                | [pod] =>
                    recordUsedIP st ip opt1.blockName pod.namespc pod.name
                      (pod.namespc ++ "-" ++ pod.name)
                | _ => (.error (.generic "ip-belong-to-multiple-pods"), st)
              else
                recordUsedIP st ip opt1.blockName opt1.podNamespace opt1.podName
                  opt1.handleID

theorem queryBlock_found (st : DSState) (name : String) (b : IPAMBlock)
    (hf : st.blocks.find? (fun x => x.name == name) = some b)
    (hd : b.deleted = false) : queryBlock st name = (.ok b, st) := by
  rw [queryBlock, hf]
  simp [hd]

theorem queryHandle_found (st : DSState) (handleID : String) (h : IPAMHandle)
    (hf : st.handles.find? (fun x => x.name == handleID) = some h)
    (hd : h.deleted = false) : queryHandle st handleID = (.ok h, st) := by
  rw [queryHandle, hf]
  simp [hd]

theorem queryHandle_missing (st : DSState) (handleID : String)
    (hf : st.handles.find? (fun x => x.name == handleID) = none) :
    queryHandle st handleID = (.error .notFound, st) := by
  rw [queryHandle, hf]

theorem updateAttribute_fields (b : IPAMBlock) (h : String)
    (a : List (String × String)) :
    (updateAttribute b h a).2.unallocated = b.unallocated ∧
    (updateAttribute b h a).2.allocations = b.allocations ∧
    (updateAttribute b h a).2.name = b.name ∧
    (updateAttribute b h a).2.cidr = b.cidr := by
  rw [updateAttribute]
  cases hf : b.attributes.findIdx? (fun existing => existing == ⟨h, a⟩) <;>
    exact ⟨rfl, rfl, rfl, rfl⟩

theorem updateAttribute_get (b : IPAMBlock) (h : String)
    (a : List (String × String)) :
    (updateAttribute b h a).2.attributes.get? (updateAttribute b h a).1 =
      some ⟨h, a⟩ := by
  rw [updateAttribute]
  rcases hf : b.attributes.findIdx?
      (fun existing => existing == (⟨h, a⟩ : AllocationAttribute)) with _ | idx
  · exact List.get?_concat_length _ _
  · obtain ⟨hlt, hfi⟩ := List.findIdx?_eq_some_iff_findIdx_eq.mp hf
    subst hfi
    have hp := @List.findIdx_getElem _
      (fun existing => existing == (⟨h, a⟩ : AllocationAttribute)) b.attributes hlt
    rw [List.get?_eq_getElem?, List.getElem?_eq_getElem hlt, eq_of_beq hp]

end Ipam

/-- C4. ReleaseLeakIP: when a live pod (phase neither Succeeded nor
Failed) reports the IP, the call returns an error, or nil with the
ignore-error flag, and mutates nothing; a caller-supplied block name is
validated against the block CIDR; for an existing allocation the release
goes through the recorded handle when the handle record exists, and falls
back to release-by-IP when the attribute is out of range, the recorded
handle identifier is empty, or the handle record is missing. -/
theorem ReleaseLeakIP_spec (st : Ipam.DSState) (ip : Nat) (bn : String)
    (b : Ipam.IPAMBlock) (ord attrIndex : Nat) (attr : Ipam.AllocationAttribute)
    (hdl : Ipam.IPAMHandle) (obn : Option String) (ig : Bool) :
    ((∃ pod ∈ st.pods, Ipam.livePodUsing ip pod = true) →
      Ipam.ReleaseLeakIP st (some ip) obn true = (.ok (), st, []) ∧
      Ipam.ReleaseLeakIP st (some ip) obn false =
        (.error (.generic "ip-used-by-pod"), st, [])) ∧
    (st.pods.find? (Ipam.livePodUsing ip) = none →
      st.blocks.find? (fun x => x.name == bn) = some b → b.deleted = false →
      b.cidr.containsB ip = false →
      Ipam.ReleaseLeakIP st (some ip) (some bn) ig =
        (.error (.generic "ip-not-belong-to-block"), st, [])) ∧
    (st.pods.find? (Ipam.livePodUsing ip) = none →
      st.blocks.find? (fun x => x.name == bn) = some b → b.deleted = false →
      b.cidr.containsB ip = true → b.ipToOrdinal ip = .ok ord →
      b.allocations.getD ord none = none →
      Ipam.ReleaseLeakIP st (some ip) (some bn) false =
        (.error (.generic "ip-not-allocated"), st, []) ∧
      Ipam.ReleaseLeakIP st (some ip) (some bn) true = (.ok (), st, [])) ∧
    (st.pods.find? (Ipam.livePodUsing ip) = none →
      st.blocks.find? (fun x => x.name == bn) = some b → b.deleted = false →
      b.cidr.containsB ip = true → b.ipToOrdinal ip = .ok ord →
      b.allocations.getD ord none = some attrIndex →
      b.attributes.get? attrIndex = some attr → attr.attrPrimary ≠ "" →
      st.handles.find? (fun x => x.name == attr.attrPrimary) = some hdl →
      hdl.deleted = false →
      Ipam.ReleaseLeakIP st (some ip) (some bn) ig =
        (.ok (), (Ipam.ReleaseByHandle st attr.attrPrimary).2,
          [.byHandle attr.attrPrimary])) ∧
    (st.pods.find? (Ipam.livePodUsing ip) = none →
      st.blocks.find? (fun x => x.name == bn) = some b → b.deleted = false →
      b.cidr.containsB ip = true → b.ipToOrdinal ip = .ok ord →
      b.allocations.getD ord none = some attrIndex →
      b.attributes.get? attrIndex = none →
      Ipam.ReleaseLeakIP st (some ip) (some bn) ig =
        ((Ipam.ReleaseIP st ip b.name).1, (Ipam.ReleaseIP st ip b.name).2,
          [.byIP ip b.name])) ∧
    (st.pods.find? (Ipam.livePodUsing ip) = none →
      st.blocks.find? (fun x => x.name == bn) = some b → b.deleted = false →
      b.cidr.containsB ip = true → b.ipToOrdinal ip = .ok ord →
      b.allocations.getD ord none = some attrIndex →
      b.attributes.get? attrIndex = some attr → attr.attrPrimary = "" →
      Ipam.ReleaseLeakIP st (some ip) (some bn) ig =
        ((Ipam.ReleaseIP st ip b.name).1, (Ipam.ReleaseIP st ip b.name).2,
          [.byIP ip b.name])) ∧
    (st.pods.find? (Ipam.livePodUsing ip) = none →
      st.blocks.find? (fun x => x.name == bn) = some b → b.deleted = false →
      b.cidr.containsB ip = true → b.ipToOrdinal ip = .ok ord →
      b.allocations.getD ord none = some attrIndex →
      b.attributes.get? attrIndex = some attr → attr.attrPrimary ≠ "" →
      st.handles.find? (fun x => x.name == attr.attrPrimary) = none →
      Ipam.ReleaseLeakIP st (some ip) (some bn) ig =
        ((Ipam.ReleaseIP st ip b.name).1, (Ipam.ReleaseIP st ip b.name).2,
          [.byIP ip b.name])) := by
  refine ⟨?_, ?_, ?_, ?_, ?_, ?_, ?_⟩
  · intro hex
    obtain ⟨pod, hmem, hlp⟩ := hex
    have hsome : (st.pods.find? (Ipam.livePodUsing ip)).isSome :=
      List.find?_isSome.mpr ⟨pod, hmem, hlp⟩
    obtain ⟨pod2, hfound⟩ := Option.isSome_iff_exists.mp hsome
    constructor <;> (rw [Ipam.ReleaseLeakIP.eq_def]; simp [hfound])
  · intro hlive hfind hdel hnc
    have hqb := Ipam.queryBlock_found st bn b hfind hdel
    simp [Ipam.ReleaseLeakIP, hlive, hqb, hnc]
  · intro hlive hfind hdel hc hord halloc
    have hqb := Ipam.queryBlock_found st bn b hfind hdel
    have halloc2 : b.allocations[ord]?.getD none = none := by
      simpa [List.getD_eq_getElem?_getD] using halloc
    exact ⟨by simp [Ipam.ReleaseLeakIP, hlive, hqb, hc, hord, halloc2],
      by simp [Ipam.ReleaseLeakIP, hlive, hqb, hc, hord, halloc2]⟩
  · intro hlive hfind hdel hc hord halloc hattr hne hh hhdel
    have hqb := Ipam.queryBlock_found st bn b hfind hdel
    have hqh := Ipam.queryHandle_found st attr.attrPrimary hdl hh hhdel
    have halloc2 : b.allocations[ord]?.getD none = some attrIndex := by
      simpa [List.getD_eq_getElem?_getD] using halloc
    have hattr2 : b.attributes[attrIndex]? = some attr := by
      simpa [List.get?_eq_getElem?] using hattr
    simp [Ipam.ReleaseLeakIP, hlive, hqb, hc, hord, halloc2, hattr2, hne, hqh]
  · intro hlive hfind hdel hc hord halloc hattr
    have hqb := Ipam.queryBlock_found st bn b hfind hdel
    have halloc2 : b.allocations[ord]?.getD none = some attrIndex := by
      simpa [List.getD_eq_getElem?_getD] using halloc
    have hattr2 : b.attributes[attrIndex]? = none := by
      simpa [List.get?_eq_getElem?] using hattr
    simp [Ipam.ReleaseLeakIP, hlive, hqb, hc, hord, halloc2, hattr2]
  · intro hlive hfind hdel hc hord halloc hattr hemp
    have hqb := Ipam.queryBlock_found st bn b hfind hdel
    have halloc2 : b.allocations[ord]?.getD none = some attrIndex := by
      simpa [List.getD_eq_getElem?_getD] using halloc
    have hattr2 : b.attributes[attrIndex]? = some attr := by
      simpa [List.get?_eq_getElem?] using hattr
    simp [Ipam.ReleaseLeakIP, hlive, hqb, hc, hord, halloc2, hattr2, hemp]
  · intro hlive hfind hdel hc hord halloc hattr hne hh
    have hqb := Ipam.queryBlock_found st bn b hfind hdel
    have hqh := Ipam.queryHandle_missing st attr.attrPrimary hh
    have halloc2 : b.allocations[ord]?.getD none = some attrIndex := by
      simpa [List.getD_eq_getElem?_getD] using halloc
    have hattr2 : b.attributes[attrIndex]? = some attr := by
      simpa [List.get?_eq_getElem?] using hattr
    simp [Ipam.ReleaseLeakIP, hlive, hqb, hc, hord, halloc2, hattr2, hne, hqh]

/-- A running pod reporting IP 1, for the RecordUsedIP scenario. -/
def podRun5 : Ipam.Pod :=
  { namespc := "ns", name := "a", nodeName := "n1", podIP := some 1,
    phase := .running, creationTimestamp := "t1" }

/-- A failed pod still reporting IP 1. -/
def podFail5 : Ipam.Pod :=
  { namespc := "ns", name := "z", nodeName := "n1", podIP := some 1,
    phase := .failed, creationTimestamp := "t0" }

/-- The four-address pool of the RecordUsedIP scenario. -/
def pool5 : Ipam.IPPool :=
  { name := "p", cidr := ⟨0, 30⟩, blockSize := 30,
    rangeStart := none, rangeEnd := none, disabled := false, typ := .routed }

/-- The only block of the RecordUsedIP scenario: all four ordinals free. -/
def block5 : Ipam.IPAMBlock :=
  { name := "blk", pool := "p", cidr := ⟨0, 30⟩,
    allocations := [none, none, none, none], unallocated := [0, 1, 2, 3],
    attributes := [], deleted := false }

/-- A one-pool, one-block datastore in which ordinal 1 of the only block
is free and two pods, one running and one failed, both report IP 1. -/
def cex5 : Ipam.DSState :=
  { pools := [pool5], blocks := [block5], handles := [],
    pods := [podRun5, podFail5], nsBlocksCfg := none }

/-- The all-empty used-ip option: every identity field is to be filled in
from the pod scan. -/
def opt5 : Ipam.UsedIPOption :=
  { podNamespace := "", podName := "", nodeName := "", blockName := "",
    handleID := "" }

/-- C5. RecordUsedIP: an ordinal already allocated in the block of the IP
is an error whatever the fix flag; when the ordinal is free and the
option lacks pod identity, a single pod of any phase reporting the IP
yields a recorded allocation whose attributes derive from that pod and
whose handle identifier is the synthesized namespace-podname string, the
ordinal leaving the unallocated list; two or more pods reporting the IP,
whatever their phases, are an error and nothing is mutated. -/
theorem RecordUsedIP_spec (st : Ipam.DSState) (ip : Nat) (opt : Ipam.UsedIPOption)
    (fix : Bool) (b : Ipam.IPAMBlock) (ord aIdx : Nat) (pod p1 p2 : Ipam.Pod)
    (rest : List Ipam.Pod) :
    (Ipam.getBlockForIP st ip = .ok b → b.ipToOrdinal ip = .ok ord →
      b.allocations.getD ord none = some aIdx →
      Ipam.RecordUsedIP st ip opt fix =
        (.error (.generic "ip-already-allocated"), st)) ∧
    (Ipam.getBlockForIP st ip = .ok b → b.ipToOrdinal ip = .ok ord →
      b.allocations.getD ord none = none → opt.handleID = "" →
      st.pods.filter (fun p => p.podIP == some ip) = p1 :: p2 :: rest →
      Ipam.RecordUsedIP st ip opt fix =
        (.error (.generic "ip-belong-to-multiple-pods"), st)) ∧
    (Ipam.getBlockForIP st ip = .ok b → b.ipToOrdinal ip = .ok ord →
      b.allocations.getD ord none = none → opt.handleID = "" →
      st.pods.filter (fun p => p.podIP == some ip) = [pod] →
      st.pods.find? (fun p => p.namespc == pod.namespc && p.name == pod.name) =
        some pod →
      st.blocks.find? (fun x => x.name == b.name) = some b → b.deleted = false →
      b.unallocated.contains ord = true → ord < b.allocations.length →
      ∃ b2, Ipam.RecordUsedIP st ip opt fix = (.ok (), Ipam.replaceBlock st b2) ∧
        b2.unallocated = b.unallocated.erase ord ∧
        ∃ idx, b2.allocations.getD ord none = some idx ∧
          b2.attributes.get? idx = some ⟨pod.namespc ++ "-" ++ pod.name,
            Ipam.podAttrs pod.namespc pod.name pod.nodeName (toString ip)
              pod.creationTimestamp⟩) := by
  refine ⟨?_, ?_, ?_⟩
  · intro hgb hord halloc
    have halloc2 : b.allocations[ord]?.getD none = some aIdx := by
      simpa [List.getD_eq_getElem?_getD] using halloc
    simp [Ipam.RecordUsedIP, hgb, hord, halloc2]
  · intro hgb hord halloc hhid hfilter
    have halloc2 : b.allocations[ord]?.getD none = none := by
      simpa [List.getD_eq_getElem?_getD] using halloc
    simp [Ipam.RecordUsedIP, hgb, hord, halloc2, hhid, hfilter]
  · intro hgb hord halloc hhid hfilter hfindp hfindb hdel hcont hlen
    have halloc2 : b.allocations[ord]?.getD none = none := by
      simpa [List.getD_eq_getElem?_getD] using halloc
    have hpodip : (pod.podIP == some ip) = true := by
      have hmem : pod ∈ st.pods.filter (fun p => p.podIP == some ip) := by
        rw [hfilter]; exact List.mem_singleton.mpr rfl
      exact (List.mem_filter.mp hmem).2
    have hqb := Ipam.queryBlock_found st b.name b hfindb hdel
    have hua := Ipam.updateAttribute_fields b (pod.namespc ++ "-" ++ pod.name)
      (Ipam.podAttrs pod.namespc pod.name pod.nodeName (toString ip)
        pod.creationTimestamp)
    have hget := Ipam.updateAttribute_get b (pod.namespc ++ "-" ++ pod.name)
      (Ipam.podAttrs pod.namespc pod.name pod.nodeName (toString ip)
        pod.creationTimestamp)
    obtain ⟨p, hp⟩ : ∃ p, Ipam.updateAttribute b (pod.namespc ++ "-" ++ pod.name)
        (Ipam.podAttrs pod.namespc pod.name pod.nodeName (toString ip)
          pod.creationTimestamp) = p := ⟨_, rfl⟩
    rw [hp] at hua hget
    refine ⟨{ p.2 with unallocated := p.2.unallocated.erase ord, allocations := p.2.allocations.set ord (some p.1) }, ?_, ?_, p.1, ?_, ?_⟩
    · have hmemu : ord ∈ b.unallocated := by simpa using hcont
      simp [Ipam.RecordUsedIP, hgb, hord, halloc2, hhid, hfilter,
        Ipam.recordUsedIP, hfindp, hpodip, hqb, hmemu, hp]
    · show p.2.unallocated.erase ord = b.unallocated.erase ord
      rw [hua.1]
    · show (p.2.allocations.set ord (some p.1)).getD ord none = some p.1
      rw [hua.2.1, List.getD_eq_getElem?_getD, List.getElem?_set_self, Option.getD_some]
      exact hlen
    · show p.2.attributes.get? p.1 = some _
      exact hget

/-- Counterexample for C5 as stated: in cex5 exactly one live pod reports
IP 1 and the ordinal of IP 1 is free in its block, yet RecordUsedIP
refuses with a multiple-pods error and mutates nothing, because the pod
scan ignores phases and a failed pod also reports the IP. -/
theorem RecordUsedIP_single_live_pod_errors :
    cex5.pods.filter (Ipam.livePodUsing 1) = [podRun5] ∧
    Ipam.getBlockForIP cex5 1 = .ok block5 ∧
    block5.allocations.getD 1 none = none ∧
    Ipam.RecordUsedIP cex5 1 opt5 false =
      (.error (.generic "ip-belong-to-multiple-pods"), cex5) :=
  ⟨rfl, rfl, rfl, rfl⟩

end HostnicSpec
